import Mathlib

/-!
# liruonian/tuntap: the ARP / ICMPv4 echo responder on a TAP or TUN interface

A shallow embedding of `src/tap/main.go` and `src/tun/main.go`.

* Byte sequences are lists of naturals; a nil Go slice is the empty list.
* Machine integers are naturals, truncated with an explicit `%` where Go truncates.
* A Go run-time panic is the `Except.error` of a handler; a logged, recovered
  error is an entry of `Effects.logs`; a frame handed to `iface.Write` is an
  entry of `Effects.writes`.
* The decoded packet is mutable in Go (the handlers hold pointers into it), so
  the ICMP handlers return the packet as it is after the call.
* Hex dumps (`printPacketInHex`) and the 100 ms pacing sleep are left out.

The repository imports its decoder and encoder from gopacket and its address
parsing from the Go standard library; the sections `net`, `layers` and
`gopacket` below model the parts the two programs call.
-/

/-- A byte sequence: every element stands for one byte (a value below 256). -/
abbrev Bytes := List Nat

/-- The two bytes of `binary.BigEndian.PutUint16` for a 16-bit value. -/
def putUint16 (v : Nat) : Bytes := [(v / 256) % 256, v % 256]

/-- The value `binary.BigEndian.Uint16` reads from the first two bytes (absent bytes read as 0). -/
def getUint16 (b : Bytes) : Nat := b.getD 0 0 * 256 + b.getD 1 0

/-- Go's `copy(bytes[start:], src)`: overwrite from `start` on, as far as both slices reach. -/
def copyAt : Bytes → Nat → Bytes → Bytes
  | [], _, _ => []
  | b :: bs, 0, [] => b :: bs
  | _ :: bs, 0, s :: ss => s :: copyAt bs 0 ss
  | b :: bs, n + 1, src => b :: copyAt bs n src

namespace net

/-- Library function `net.IP.To4` of the Go standard library: a 4-byte address is
returned as it is, a 16-byte IPv4-mapped address gives its last four bytes, and
anything else gives nil (the empty list). -/
def To4 (ip : Bytes) : Bytes :=
  if ip.length = 4 then ip
  else if ip.length = 16 ∧ (ip.take 10).all (fun b => b == 0) = true
      ∧ ip.getD 10 0 = 0xff ∧ ip.getD 11 0 = 0xff then
    (ip.drop 12).take 4
  else []

end net

namespace layers

def LinkTypeEthernet : Nat := 1
def EthernetTypeLLC : Nat := 0
def EthernetTypeIPv4 : Nat := 0x0800
def EthernetTypeARP : Nat := 0x0806
def EthernetTypeIPv6 : Nat := 0x86DD
def ARPRequest : Nat := 1
def ARPReply : Nat := 2
def ICMPv4TypeEchoReply : Nat := 0
def ICMPv4TypeEchoRequest : Nat := 8
def IPProtocolIPv6HopByHop : Nat := 0
def IPProtocolICMPv4 : Nat := 1
def IPProtocolIPv4 : Nat := 4
def IPProtocolIPv6 : Nat := 41

/-- The fields of `layers.Ethernet`. -/
structure Ethernet where
  SrcMAC : Bytes
  DstMAC : Bytes
  EthernetType : Nat
  Length : Nat
deriving DecidableEq

/-- The fields of `layers.ARP`. -/
structure ARP where
  AddrType : Nat
  Protocol : Nat
  HwAddressSize : Nat
  ProtAddressSize : Nat
  Operation : Nat
  SourceHwAddress : Bytes
  SourceProtAddress : Bytes
  DstHwAddress : Bytes
  DstProtAddress : Bytes
deriving DecidableEq

/-- The fields of `layers.IPv4Option`. -/
structure IPv4Option where
  OptionType : Nat
  OptionLength : Nat
  OptionData : Bytes
deriving DecidableEq

/-- The fields of `layers.IPv4`. -/
structure IPv4 where
  Version : Nat
  IHL : Nat
  TOS : Nat
  Length : Nat
  Id : Nat
  Flags : Nat
  FragOffset : Nat
  TTL : Nat
  Protocol : Nat
  Checksum : Nat
  SrcIP : Bytes
  DstIP : Bytes
  Options : List IPv4Option
  Padding : Bytes
deriving DecidableEq

/-- The fields of `layers.IPv6` that the decoder fills. -/
structure IPv6 where
  Version : Nat
  TrafficClass : Nat
  FlowLabel : Nat
  Length : Nat
  NextHeader : Nat
  HopLimit : Nat
  SrcIP : Bytes
  DstIP : Bytes
deriving DecidableEq

/-- The fields of `layers.ICMPv4`; `TypeCode` is the 16-bit `type << 8 | code`, and
`Payload` is the layer payload (`BaseLayer.Payload`). -/
structure ICMPv4 where
  TypeCode : Nat
  Checksum : Nat
  Id : Nat
  Seq : Nat
  Payload : Bytes
deriving DecidableEq

/-- `ICMPv4TypeCode.Type`: the high byte. -/
def ICMPv4.Type (i : ICMPv4) : Nat := (i.TypeCode / 256) % 256

/-- `ICMPv4TypeCode.Code`: the low byte. -/
def ICMPv4.Code (i : ICMPv4) : Nat := i.TypeCode % 256

end layers

namespace gopacket

/-- `gopacket.SerializeOptions`. -/
structure SerializeOptions where
  FixLengths : Bool
  ComputeChecksums : Bool
deriving DecidableEq

/-- What a `SerializeTo` call ends in: the new buffer content, a returned error, or
a run-time panic. -/
inductive SerializeResult where
  | ok (b : Bytes)
  | err (msg : String)
  | panic (msg : String)
deriving DecidableEq

/-- The layer types the two programs ask for, and the others the decoder can add. -/
inductive LayerType where
  | Ethernet
  | ARP
  | IPv4
  | IPv6
  | ICMPv4
  | Payload
  | Fragment
  | DecodeFailure
  | Unmodelled (n : Nat)
deriving DecidableEq

/-- A decoded layer. -/
inductive Layer where
  | ethernet (eth : layers.Ethernet)
  | arp (a : layers.ARP)
  | ipv4 (ip : layers.IPv4)
  | ipv6 (ip : layers.IPv6)
  | icmpv4 (i : layers.ICMPv4)
  | payload (data : Bytes)
  | fragment (data : Bytes)
  | decodeFailure
  | unmodelled (n : Nat)
deriving DecidableEq

/-- `Layer.LayerType`. -/
def Layer.LayerType : Layer → LayerType
  | .ethernet _ => .Ethernet
  | .arp _ => .ARP
  | .ipv4 _ => .IPv4
  | .ipv6 _ => .IPv6
  | .icmpv4 _ => .ICMPv4
  | .payload _ => .Payload
  | .fragment _ => .Fragment
  | .decodeFailure => .DecodeFailure
  | .unmodelled n => .Unmodelled n

/-- A decoded packet: its layers, outermost first. -/
structure Packet where
  layers : List Layer
deriving DecidableEq

/-- `Packet.Layer(t)`: the first layer of type `t`, or nil. -/
def Packet.Layer (p : Packet) (t : LayerType) : Option Layer :=
  p.layers.find? (fun l => decide (l.LayerType = t))

/-- Replace the first element that satisfies `f` (the object a pointer obtained
from `Packet.Layer` refers to). -/
def replaceFirst (f : Layer → Bool) (new : Layer) : List Layer → List Layer
  | [] => []
  | l :: ls => if f l then new :: ls else l :: replaceFirst f new ls

/-- The packet after the object behind `Packet.Layer(t)` was overwritten with `new`. -/
def Packet.setLayer (p : Packet) (t : LayerType) (new : gopacket.Layer) : Packet :=
  { layers := replaceFirst (fun l => decide (l.LayerType = t)) new p.layers }

/-- The layers the programs hand to `SerializeLayers`. -/
inductive SerializableLayer where
  | ethernet (eth : layers.Ethernet)
  | arp (a : layers.ARP)
  | ipv4 (ip : layers.IPv4)
  | icmpv4 (i : layers.ICMPv4)
  | payload (data : Bytes)
deriving DecidableEq

end gopacket

/-! ## The encoder: gopacket's `SerializeTo` methods and `SerializeLayers` -/

namespace layers
open gopacket

/-- Zero padding up to the 60 bytes of a minimal Ethernet frame. -/
def padTo60 (b : Bytes) : Bytes := b ++ List.replicate (60 - b.length) 0

/-- Modelled from the spec: the Encoder's Ethernet framing (section 4.5), which the
repository takes from gopacket (`layers.Ethernet.SerializeTo`) and does not carry in
its sources. Both addresses must be 6 bytes long; the 14-byte header goes before the
buffer content; a frame shorter than 60 bytes is padded with zeros. The first
component is the layer as the call leaves it. -/
def Ethernet.SerializeTo (eth : Ethernet) (b : Bytes) (opts : SerializeOptions) :
    Ethernet × SerializeResult :=
  if eth.DstMAC.length ≠ 6 then (eth, .err "invalid dst MAC")
  else if eth.SrcMAC.length ≠ 6 then (eth, .err "invalid src MAC")
  else if eth.Length ≠ 0 ∨ eth.EthernetType = EthernetTypeLLC then
    let eth1 := if opts.FixLengths then { eth with Length := b.length % 65536 } else eth
    if eth1.EthernetType ≠ EthernetTypeLLC then
      (eth1, .err "ethernet type not compatible with length value")
    else if eth1.Length > 0x0600 then (eth1, .err "invalid ethernet length")
    else (eth1, .ok (padTo60 (eth1.DstMAC ++ eth1.SrcMAC ++ putUint16 eth1.Length ++ b)))
  else (eth, .ok (padTo60 (eth.DstMAC ++ eth.SrcMAC ++ putUint16 eth.EthernetType ++ b)))

/-- Modelled from the spec: the Encoder's ARP serialization, which the repository
takes from gopacket (`layers.ARP.SerializeTo`) and does not carry in its sources:
the 8 fixed bytes, then the four addresses in the lengths they have. -/
def ARP.SerializeTo (arp : ARP) (b : Bytes) (opts : SerializeOptions) :
    ARP × SerializeResult :=
  let emit (a : ARP) : Bytes :=
    putUint16 a.AddrType ++ putUint16 a.Protocol
      ++ [a.HwAddressSize % 256, a.ProtAddressSize % 256] ++ putUint16 a.Operation
      ++ a.SourceHwAddress ++ a.SourceProtAddress ++ a.DstHwAddress ++ a.DstProtAddress ++ b
  if opts.FixLengths then
    if arp.SourceHwAddress.length ≠ arp.DstHwAddress.length then
      (arp, .err "mismatched hardware address sizes")
    else
      let arp1 := { arp with HwAddressSize := arp.SourceHwAddress.length % 256 }
      if arp1.SourceProtAddress.length ≠ arp1.DstProtAddress.length then
        (arp1, .err "mismatched prot address sizes")
      else
        let arp2 := { arp1 with ProtAddressSize := arp1.SourceProtAddress.length % 256 }
        (arp2, .ok (emit arp2))
  else (arp, .ok (emit arp))

/-- The option-area size of `IPv4.getIPv4OptionSize`: an 8-bit counter, rounded up
to a multiple of four. -/
def IPv4.getIPv4OptionSize (ip : IPv4) : Nat :=
  let optionSize := ip.Options.foldl (fun acc opt =>
    if opt.OptionType = 0 then (acc + 1) % 256
    else if opt.OptionType = 1 then (acc + 1) % 256
    else (acc + opt.OptionLength) % 256) 0
  if optionSize % 4 ≠ 0 then (optionSize + (4 - optionSize % 4)) % 256 else optionSize

/-- The 16-bit value of `IPv4.flagsfrags`. -/
def IPv4.flagsfrags (ip : IPv4) : Nat :=
  ((ip.Flags * 8192) % 65536) ||| (ip.FragOffset % 65536)

/-- The address check of `checkIPv4Address`. -/
def checkIPv4Address (addr : Bytes) : Except String Bytes :=
  if net.To4 addr ≠ [] then .ok (net.To4 addr)
  else if addr.length = 16 then .error "address is IPv6"
  else .error "wrong length of address"

/-- A store `bytes[i] = v` into a byte slice; none is the index-out-of-range panic. -/
def store (bytes : Bytes) (i v : Nat) : Option Bytes :=
  if i < bytes.length then some (bytes.set i (v % 256)) else none

/-- The option loop of `IPv4.SerializeTo`, writing at `curLocation` into the header
slice. A slice bound past the header length is taken as a panic (the capacity of the
header slice is taken to be its length). -/
def putOptions : List IPv4Option → Nat → Bytes → SerializeResult
  | [], _, bytes => .ok bytes
  | opt :: rest, curLocation, bytes =>
    if opt.OptionType = 0 then
      match store bytes curLocation 0 with
      | none => .panic "index out of range"
      | some bytes1 => putOptions rest (curLocation + 1) bytes1
    else if opt.OptionType = 1 then
      match store bytes curLocation 1 with
      | none => .panic "index out of range"
      | some bytes1 => putOptions rest (curLocation + 1) bytes1
    else
      match store bytes curLocation opt.OptionType with
      | none => .panic "index out of range"
      | some bytes1 =>
        match store bytes1 (curLocation + 1) opt.OptionLength with
        | none => .panic "index out of range"
        | some bytes2 =>
          if opt.OptionData.length > (opt.OptionLength % 256 + 256 - 2) % 256 then
            .err "option length is smaller than length of option data"
          else if opt.OptionLength < 2 ∨ curLocation + opt.OptionLength > bytes.length then
            .panic "slice bounds out of range"
          else
            putOptions rest (curLocation + opt.OptionLength)
              (copyAt bytes2 (curLocation + 2) opt.OptionData)

/-- The summing loop of gopacket's `checksum` for the IPv4 header: a 32-bit
accumulator over byte pairs; none is the index-out-of-range panic of an odd length. -/
def checksumLoop : Bytes → Nat → Option Nat
  | [], csum => some csum
  | [_], _ => none
  | b0 :: b1 :: rest, csum =>
    checksumLoop rest (((csum + b0 * 256) % 4294967296 + b1) % 4294967296)

/-- The carry loop `for csum > 0xffff: csum = (csum >> 16) + (csum & 0xffff)`;
the first argument bounds the number of turns. -/
def foldCarryLoop : Nat → Nat → Nat
  | 0, csum => csum
  | fuel + 1, csum =>
    if csum ≤ 65535 then csum else foldCarryLoop fuel (csum / 65536 + csum % 65536)

/-- The carry loop run to its end: every turn lowers the sum, so `csum` turns suffice. -/
def foldCarry (csum : Nat) : Nat := foldCarryLoop csum csum

/-- Modelled from the spec: the IPv4 header checksum of the Encoder (section 4.5),
which the repository takes from gopacket (`checksum` in layers/ip4.go): bytes 10 and
11 are cleared, the byte pairs are summed in 32 bits, the carries are folded and the
result is complemented. -/
def checksum (bytes : Bytes) : Option Nat :=
  match checksumLoop ((bytes.set 10 0).set 11 0) 0 with
  | none => none
  | some csum => some (65535 - foldCarry csum)

/-- The summing loop of gopacket's `tcpipChecksum`: 32-bit accumulator, a trailing
odd byte counts as the high byte of a last word. -/
def tcpipChecksumLoop : Bytes → Nat → Nat
  | [], csum => csum
  | [b0], csum => (csum + b0 * 256) % 4294967296
  | b0 :: b1 :: rest, csum =>
    tcpipChecksumLoop rest (((csum + b0 * 256) % 4294967296 + b1) % 4294967296)

/-- Modelled from the spec: the ICMPv4 checksum of the Encoder (section 4.5), which
the repository takes from gopacket (`tcpipChecksum`). -/
def tcpipChecksum (data : Bytes) (csum : Nat) : Nat :=
  65535 - foldCarry (tcpipChecksumLoop data csum)

/-- Modelled from the spec: the Encoder's IPv4 serialization (section 4.5), which the
repository takes from gopacket (`layers.IPv4.SerializeTo`) and does not carry in its
sources. With FixLengths the header length and total length are set from the bytes;
both addresses are brought to 4-byte form; the options are written; with
ComputeChecksums the header checksum is computed over the finished header. The first
component is the layer as the call leaves it. -/
def IPv4.SerializeTo (ip : IPv4) (b : Bytes) (opts : SerializeOptions) :
    IPv4 × SerializeResult :=
  let optionLength := ip.getIPv4OptionSize
  let ip1 := if opts.FixLengths then
      { ip with IHL := (5 + optionLength / 4) % 256,
                Length := (20 + optionLength + b.length) % 65536 }
    else ip
  let fixed : Bytes :=
    [((ip1.Version * 16) % 256) ||| (ip1.IHL % 256), ip1.TOS % 256]
      ++ putUint16 ip1.Length ++ putUint16 ip1.Id ++ putUint16 ip1.flagsfrags
      ++ [ip1.TTL % 256, ip1.Protocol % 256, 0, 0]
  match checkIPv4Address ip1.SrcIP with
  | .error _ => (ip1, .err "invalid (src) IPv4 address")
  | .ok src =>
    match checkIPv4Address ip1.DstIP with
    | .error _ => (ip1, .err "invalid (dst) IPv4 address")
    | .ok dst =>
      let ip2 := { ip1 with SrcIP := src, DstIP := dst }
      match putOptions ip2.Options 20 (fixed ++ src ++ dst ++ List.replicate optionLength 0) with
      | .panic msg => (ip2, .panic msg)
      | .err msg => (ip2, .err msg)
      | .ok bytes =>
        if opts.ComputeChecksums then
          match checksum bytes with
          | none => (ip2, .panic "index out of range")
          | some c =>
            ({ ip2 with Checksum := c }, .ok (copyAt bytes 10 (putUint16 c) ++ b))
        else (ip2, .ok (copyAt bytes 10 (putUint16 ip2.Checksum) ++ b))

/-- Modelled from the spec: the Encoder's ICMPv4 serialization (section 4.5), which
the repository takes from gopacket (`layers.ICMPv4.SerializeTo`): type and code,
checksum, identifier and sequence number before the buffer content; with
ComputeChecksums the checksum is computed over the 8 header bytes (checksum bytes
zero) and everything already in the buffer. -/
def ICMPv4.SerializeTo (i : ICMPv4) (b : Bytes) (opts : SerializeOptions) :
    ICMPv4 × SerializeResult :=
  let i1 := if opts.ComputeChecksums then
      { i with Checksum :=
          tcpipChecksum (putUint16 i.TypeCode ++ [0, 0] ++ putUint16 i.Id ++ putUint16 i.Seq ++ b) 0 }
    else i
  (i1, .ok (putUint16 i1.TypeCode ++ putUint16 i1.Checksum ++ putUint16 i1.Id
              ++ putUint16 i1.Seq ++ b))

end layers

namespace gopacket
open layers

/-- The `SerializeTo` of `gopacket.Payload`: the bytes go before the buffer content. -/
def Payload.SerializeTo (p : Bytes) (b : Bytes) : SerializeResult := .ok (p ++ b)

/-- One layer's `SerializeTo`: the layer as the call leaves it, and the outcome. -/
def SerializableLayer.SerializeTo (l : SerializableLayer) (b : Bytes) (opts : SerializeOptions) :
    SerializableLayer × SerializeResult :=
  match l with
  | .ethernet eth => (eth.SerializeTo b opts).map .ethernet id
  | .arp a => (a.SerializeTo b opts).map .arp id
  | .ipv4 ip => (ip.SerializeTo b opts).map .ipv4 id
  | .icmpv4 i => (i.SerializeTo b opts).map .icmpv4 id
  | .payload p => (.payload p, Payload.SerializeTo p b)

/-- Modelled from the spec: the Encoder (section 4.5), which the repository takes
from gopacket (`gopacket.SerializeLayers`): the buffer is cleared and the layers are
serialized last to first, each one before what is already in the buffer; the first
error or panic ends the call. The first component lists the layers as the call leaves
them. -/
def SerializeLayers (opts : SerializeOptions) :
    List SerializableLayer → List SerializableLayer × SerializeResult
  | [] => ([], .ok [])
  | l :: rest =>
    match SerializeLayers opts rest with
    | (rest1, .ok b) => (l.SerializeTo b opts).map (fun l1 => l1 :: rest1) id
    | (rest1, .err msg) => (l :: rest1, .err msg)
    | (rest1, .panic msg) => (l :: rest1, .panic msg)

end gopacket

/-! ## The decoder: gopacket's `NewPacket` for the layers the programs look at -/

namespace layers
open gopacket

/-- Modelled from the spec: the Decoder's Ethernet layer (section 4.1), which the
repository takes from gopacket (`layers.Ethernet.DecodeFromBytes`): the layer and its
payload, or none when fewer than 14 bytes are there. -/
def Ethernet.DecodeFromBytes (data : Bytes) : Option (Ethernet × Bytes) :=
  if data.length < 14 then none
  else
    let ethernetType := getUint16 (data.drop 12)
    let payload := data.drop 14
    if ethernetType < 0x0600 then
      some ({ DstMAC := data.take 6, SrcMAC := (data.drop 6).take 6,
              EthernetType := EthernetTypeLLC, Length := ethernetType },
            payload.take ethernetType)
    else
      some ({ DstMAC := data.take 6, SrcMAC := (data.drop 6).take 6,
              EthernetType := ethernetType, Length := 0 }, payload)

/-- A Go slice expression `data[lo:hi]`; none is the slice-bounds panic. The capacity
of `data` is taken to be its length. -/
def slice (data : Bytes) (lo hi : Nat) : Option Bytes :=
  if lo ≤ hi ∧ hi ≤ data.length then some ((data.take hi).drop lo) else none

/-- Modelled from the spec: the Decoder's ARP layer (section 4.1), which the
repository takes from gopacket (`layers.ARP.DecodeFromBytes`): the layer and its
payload, or none when the bytes are too few for the address sizes they announce.
The offsets are 8-bit sums, as in gopacket; a slice-bounds panic (which the packet
decoder recovers from) is none as well. -/
def ARP.DecodeFromBytes (data : Bytes) : Option (ARP × Bytes) :=
  if data.length < 8 then none
  else
    let hw := data.getD 4 0
    let pr := data.getD 5 0
    let arpLength := (8 + 2 * hw + 2 * pr) % 256
    if data.length < arpLength then none
    else
      match slice data 8 ((8 + hw) % 256),
            slice data ((8 + hw) % 256) ((8 + hw + pr) % 256),
            slice data ((8 + hw + pr) % 256) ((8 + 2 * hw + pr) % 256),
            slice data ((8 + 2 * hw + pr) % 256) ((8 + 2 * hw + 2 * pr) % 256) with
      | some sha, some spa, some tha, some tpa =>
        some ({ AddrType := getUint16 data, Protocol := getUint16 (data.drop 2),
                HwAddressSize := hw, ProtAddressSize := pr,
                Operation := getUint16 (data.drop 6),
                SourceHwAddress := sha, SourceProtAddress := spa,
                DstHwAddress := tha, DstProtAddress := tpa },
              data.drop arpLength)
      | _, _, _, _ => none

/-- The option loop of `layers.IPv4.DecodeFromBytes` over the bytes between the 20
fixed header bytes and the end of the header: the options read, the padding after an
end-of-list option, and whether the loop ended without an error. The first argument
bounds the number of turns. -/
def decodeOptions : Nat → Bytes → List IPv4Option → List IPv4Option × Bytes × Bool
  | 0, _, acc => (acc, [], true)
  | fuel + 1, data, acc =>
    match data with
    | [] => (acc, [], true)
    | t :: rest =>
      if t = 0 then
        (acc ++ [{ OptionType := 0, OptionLength := 1, OptionData := [] }], rest, true)
      else if t = 1 then
        decodeOptions fuel rest (acc ++ [{ OptionType := 1, OptionLength := 1, OptionData := [] }])
      else if data.length < 2 then (acc, [], false)
      else
        let optionLength := data.getD 1 0
        if data.length < optionLength then (acc, [], false)
        else if optionLength ≤ 2 then (acc, [], false)
        else
          decodeOptions fuel (data.drop optionLength)
            (acc ++ [{ OptionType := t, OptionLength := optionLength,
                       OptionData := (data.take optionLength).drop 2 }])

/-- Modelled from the spec: the Decoder's IPv4 layer (section 4.1), which the
repository takes from gopacket (`layers.IPv4.DecodeFromBytes`). The layer is returned
in every case (gopacket adds it to the packet before it looks at the error); the
payload is none when decoding failed. -/
def IPv4.DecodeFromBytes (data : Bytes) : IPv4 × Option Bytes :=
  if data.length < 20 then
    ({ Version := 0, IHL := 0, TOS := 0, Length := 0, Id := 0, Flags := 0, FragOffset := 0,
       TTL := 0, Protocol := 0, Checksum := 0, SrcIP := [], DstIP := [], Options := [],
       Padding := [] }, none)
  else
    let flagsfrags := getUint16 (data.drop 6)
    let length0 := getUint16 (data.drop 2)
    let ip : IPv4 :=
      { Version := data.getD 0 0 / 16, IHL := data.getD 0 0 % 16, TOS := data.getD 1 0,
        Length := if length0 = 0 then data.length % 65536 else length0,
        Id := getUint16 (data.drop 4), Flags := flagsfrags / 8192,
        FragOffset := flagsfrags % 8192, TTL := data.getD 8 0, Protocol := data.getD 9 0,
        Checksum := getUint16 (data.drop 10), SrcIP := (data.drop 12).take 4,
        DstIP := (data.drop 16).take 4, Options := [], Padding := [] }
    if ip.Length < 20 then (ip, none)
    else if ip.IHL < 5 then (ip, none)
    else if ip.IHL * 4 > ip.Length then (ip, none)
    else if data.length < ip.Length ∧ ip.IHL * 4 > data.length then (ip, none)
    else
      let data1 := data.take ip.Length
      let header := (data1.take (ip.IHL * 4)).drop 20
      let r := decodeOptions header.length header []
      ({ ip with Options := r.1, Padding := r.2.1 },
        if r.2.2 then some (data1.drop (ip.IHL * 4)) else none)

/-- Modelled from the spec: the Decoder's IPv6 layer, which the repository takes
from gopacket (`layers.IPv6.DecodeFromBytes`), for a header that is not followed by a
hop-by-hop extension. The layer is returned in every case; the payload is none when
decoding failed. -/
def IPv6.DecodeFromBytes (data : Bytes) : IPv6 × Option Bytes :=
  if data.length < 40 then
    ({ Version := 0, TrafficClass := 0, FlowLabel := 0, Length := 0, NextHeader := 0,
       HopLimit := 0, SrcIP := [], DstIP := [] }, none)
  else
    let ip : IPv6 :=
      { Version := data.getD 0 0 / 16,
        TrafficClass := (getUint16 data / 16) % 256,
        FlowLabel := (getUint16 data * 65536 + getUint16 (data.drop 2)) % 1048576,
        Length := getUint16 (data.drop 4), NextHeader := data.getD 6 0,
        HopLimit := data.getD 7 0, SrcIP := (data.drop 8).take 16,
        DstIP := (data.drop 24).take 16 }
    if ip.Length = 0 then (ip, none)
    else (ip, some ((data.drop 40).take ip.Length))

/-- Modelled from the spec: the Decoder's ICMPv4 layer (section 4.1), which the
repository takes from gopacket (`layers.ICMPv4.DecodeFromBytes`): none when fewer
than 8 bytes are there; the payload is everything after the 8 header bytes. -/
def ICMPv4.DecodeFromBytes (data : Bytes) : Option ICMPv4 :=
  if data.length < 8 then none
  else
    some { TypeCode := getUint16 data, Checksum := getUint16 (data.drop 2),
           Id := getUint16 (data.drop 4), Seq := getUint16 (data.drop 6),
           Payload := data.drop 8 }

end layers

namespace gopacket
open layers

/-- The decoders a layer can hand its payload to. `unmodelled n` stands for every
gopacket decoder outside this model (LLC, 802.1Q, TCP, UDP, IPv6 extensions, ...):
EtherType `t` is `unmodelled t`, IP protocol `p` is `unmodelled (65536 + p)`. -/
inductive Decoder where
  | ethernet
  | arp
  | ipv4
  | ipv6
  | icmpv4
  | payload
  | fragment
  | unmodelled (n : Nat)
deriving DecidableEq

/-- The behaviour of the decoders outside this model: for decoder `n` on `data`,
none is a decoding error, and `some (next, skip, len)` adds a layer of type
`Unmodelled n` and hands the sub-slice `data[skip : skip+len]` (cut at the end of
`data`) to `next`. -/
abbrev Unmodelled := Nat → Bytes → Option (Decoder × Nat × Nat)

/-- The decoder `EthernetType.Decode` chooses. -/
def ethernetTypeDecoder (t : Nat) : Decoder :=
  if t = EthernetTypeIPv4 then .ipv4
  else if t = EthernetTypeARP then .arp
  else if t = EthernetTypeIPv6 then .ipv6
  else .unmodelled t

/-- The decoder `IPProtocol.LayerType` chooses, for an IPv4 and for an IPv6 header. -/
def ipProtocolDecoder (p : Nat) : Decoder :=
  if p = IPProtocolICMPv4 then .icmpv4
  else if p = IPProtocolIPv4 then .ipv4
  else if p = IPProtocolIPv6 then .ipv6
  else .unmodelled (65536 + p)

/-- The decoder of `IPv4.NextLayerType`: a fragment is not looked into. -/
def ipv4NextDecoder (ip : IPv4) : Decoder :=
  if ip.Flags % 2 = 1 ∨ ip.FragOffset ≠ 0 then .fragment else ipProtocolDecoder ip.Protocol

/-- Modelled from the spec: the Decoder (section 4.1), which the repository takes
from gopacket (eager `NewPacket` decoding) and does not carry in its sources. Each
decoder adds its layer and hands a non-empty payload to the next decoder; a decoding
error ends the stack with a DecodeFailure layer. The first argument bounds the number
of layers. -/
def decodeFrom (ext : Unmodelled) : Nat → Decoder → Bytes → List Layer
  | 0, _, _ => []
  | fuel + 1, d, data =>
    match d with
    | .payload => [.payload data]
    | .fragment => [.fragment data]
    | .ethernet =>
      match Ethernet.DecodeFromBytes data with
      | none => [.decodeFailure]
      | some (eth, payload) =>
        .ethernet eth ::
          (if payload.isEmpty then []
           else decodeFrom ext fuel (ethernetTypeDecoder eth.EthernetType) payload)
    | .arp =>
      match ARP.DecodeFromBytes data with
      | none => [.decodeFailure]
      | some (arp, payload) =>
        .arp arp :: (if payload.isEmpty then [] else decodeFrom ext fuel .payload payload)
    | .ipv4 =>
      match IPv4.DecodeFromBytes data with
      | (ip, none) => [.ipv4 ip, .decodeFailure]
      | (ip, some payload) =>
        .ipv4 ip :: (if payload.isEmpty then [] else decodeFrom ext fuel (ipv4NextDecoder ip) payload)
    | .ipv6 =>
      if data.length ≥ 40 ∧ data.getD 6 0 = IPProtocolIPv6HopByHop then
        .ipv6 (IPv6.DecodeFromBytes data).1 ::
          decodeFrom ext fuel (.unmodelled (65536 + IPProtocolIPv6HopByHop)) (data.drop 40)
      else
        match IPv6.DecodeFromBytes data with
        | (ip, none) => [.ipv6 ip, .decodeFailure]
        | (ip, some payload) =>
          .ipv6 ip ::
            (if payload.isEmpty then [] else decodeFrom ext fuel (ipProtocolDecoder ip.NextHeader) payload)
    | .icmpv4 =>
      match ICMPv4.DecodeFromBytes data with
      | none => [.decodeFailure]
      | some icmp =>
        .icmpv4 icmp ::
          (if icmp.Payload.isEmpty then [] else decodeFrom ext fuel .payload icmp.Payload)
    | .unmodelled n =>
      match ext n data with
      | none => [.decodeFailure]
      | some (next, skip, len) =>
        .unmodelled n ::
          (if ((data.drop skip).take len).isEmpty then []
           else decodeFrom ext fuel next ((data.drop skip).take len))

/-- The packet `gopacket.NewPacket(data, first, gopacket.Default)` builds. Every
modelled layer uses up at least one byte, so the length of the data bounds the number
of layers. -/
def NewPacket (ext : Unmodelled) (data : Bytes) (first : Decoder) : Packet :=
  { layers := decodeFrom ext (data.length + 1) first data }

end gopacket

/-! ## The two programs -/

/-- What a handler did to the outside: the frames handed to `iface.Write`, in order,
and the messages handed to `log.Printf`. The interface takes every frame whole. -/
structure Effects where
  writes : List Bytes
  logs : List String
deriving DecidableEq

/-- No write and no log entry. -/
def Effects.none : Effects := { writes := [], logs := [] }

/-- One effect after the other. -/
def Effects.append (a b : Effects) : Effects :=
  { writes := a.writes ++ b.writes, logs := a.logs ++ b.logs }

/-- The options `FixLengths: true, ComputeChecksums: true` of both ICMP handlers. -/
def fixAll : gopacket.SerializeOptions := { FixLengths := true, ComputeChecksums := true }

/-- The empty `gopacket.SerializeOptions{}` of the ARP handler. -/
def fixNothing : gopacket.SerializeOptions := { FixLengths := false, ComputeChecksums := false }

/-- The packet after `SerializeLayers` has run on layers of which the Ethernet and
IPv4 ones are the packet's own objects (pointers obtained from `packet.Layer`). -/
def writeBack (p : gopacket.Packet) : List gopacket.SerializableLayer → gopacket.Packet
  | [] => p
  | .ethernet eth :: rest => writeBack (p.setLayer .Ethernet (.ethernet eth)) rest
  | .ipv4 ip :: rest => writeBack (p.setLayer .IPv4 (.ipv4 ip)) rest
  | _ :: rest => writeBack p rest

/-- The end of both ICMP handlers and of the ARP handler: a serialization error is
logged and nothing is written, otherwise the frame is written. -/
def emit : gopacket.SerializeResult → Except String Effects
  | .ok frame => .ok { writes := [frame], logs := [] }
  | .err msg => .ok { writes := [], logs := ["serialize layers failed: " ++ msg] }
  | .panic msg => .error msg

namespace tap
open gopacket layers

/-- The reply layers of `handleARPRequest` (src/tap/main.go, lines 129-144). -/
def arpReplyLayers (arpPacket : ARP) (macAddr ipAddr : Bytes) : List SerializableLayer :=
  let arpReply : ARP :=
    { AddrType := LinkTypeEthernet,
      Protocol := EthernetTypeIPv4,
      HwAddressSize := 6,
      ProtAddressSize := 4,
      Operation := ARPReply,
      SourceHwAddress := macAddr,
      SourceProtAddress := net.To4 ipAddr,
      DstHwAddress := arpPacket.SourceHwAddress,
      DstProtAddress := arpPacket.SourceProtAddress }
  let ethernetLayer : Ethernet :=
    { SrcMAC := macAddr,
      DstMAC := arpPacket.SourceHwAddress,
      EthernetType := EthernetTypeARP,
      Length := 0 }
  [.ethernet ethernetLayer, .arp arpReply]

/-- The function `handleARPRequest` of src/tap/main.go. A layer that is not an ARP
layer leaves `arpPacket` nil, and reading its field panics. -/
def handleARPRequest (arpLayer : Layer) (macAddr ipAddr : Bytes) : Except String Effects :=
  match arpLayer with
  | .arp arpPacket =>
    emit (SerializeLayers fixNothing (arpReplyLayers arpPacket macAddr ipAddr)).2
  | _ => .error "invalid memory address or nil pointer dereference"

/-- The reply layers of `handleICMPRequest` (src/tap/main.go, lines 95-111), and the
packet after the two in-place swaps of lines 102 and 105. The unchecked type
assertions on `packet.Layer(...)` panic when the layer is missing. -/
def icmpReplyLayers (packet : Packet) (icmpPacket : ICMPv4) :
    Except String (Packet × List SerializableLayer) :=
  let icmpReplyPacket : ICMPv4 :=
    { TypeCode := ICMPv4TypeEchoReply, Id := icmpPacket.Id, Seq := icmpPacket.Seq,
      Checksum := 0, Payload := [] }
  match packet.Layer .IPv4 with
  | some (.ipv4 ipPacket0) =>
    let ipPacket := { ipPacket0 with DstIP := ipPacket0.SrcIP, SrcIP := ipPacket0.DstIP }
    let packet1 := packet.setLayer .IPv4 (.ipv4 ipPacket)
    match packet1.Layer .Ethernet with
    | some (.ethernet ethernetPacket0) =>
      let ethernetPacket :=
        { ethernetPacket0 with DstMAC := ethernetPacket0.SrcMAC, SrcMAC := ethernetPacket0.DstMAC }
      let packet2 := packet1.setLayer .Ethernet (.ethernet ethernetPacket)
      .ok (packet2, [.ethernet ethernetPacket, .ipv4 ipPacket, .icmpv4 icmpReplyPacket,
                     .payload icmpPacket.Payload])
    | _ => .error "interface conversion: interface is nil, not *layers.Ethernet"
  | _ => .error "interface conversion: interface is nil, not *layers.IPv4"

/-- The function `handleICMPRequest` of src/tap/main.go: the packet as the call
leaves it, and what was written and logged. -/
def handleICMPRequest (packet : Packet) (icmpLayer : Layer) : Except String (Packet × Effects) :=
  match icmpLayer with
  | .icmpv4 icmpPacket =>
    if icmpPacket.Type = ICMPv4TypeEchoRequest then
      match icmpReplyLayers packet icmpPacket with
      | .error msg => .error msg
      | .ok (packet2, reply) =>
        match emit (SerializeLayers fixAll reply).2 with
        | .error msg => .error msg
        | .ok effects => .ok (writeBack packet2 (SerializeLayers fixAll reply).1, effects)
    else .ok (packet, Effects.none)
  | _ => .error "invalid memory address or nil pointer dereference"

/-- The body of the loop of `startTAP` after the frame was decoded (lines 73-83):
the ARP branch, then the ICMP branch. -/
def dispatch (ethernetPacket : Packet) (fakeMACAddr fakeIPAddr : Bytes) : Except String Effects :=
  let arpBranch : Except String Effects :=
    match ethernetPacket.Layer .ARP with
    | some arpLayer => handleARPRequest arpLayer fakeMACAddr fakeIPAddr
    | none => .ok Effects.none
  match arpBranch with
  | .error msg => .error msg
  | .ok e1 =>
    match ethernetPacket.Layer .ICMPv4 with
    | some icmpLayer =>
      match handleICMPRequest ethernetPacket icmpLayer with
      | .error msg => .error msg
      | .ok (_, e2) => .ok (e1.append e2)
    | none => .ok e1

/-- One turn of the loop of `startTAP` on a frame that was read (lines 72-83). -/
def iteration (ext : Unmodelled) (fakeMACAddr fakeIPAddr : Bytes) (frame : Bytes) :
    Except String Effects :=
  dispatch (NewPacket ext frame .ethernet) fakeMACAddr fakeIPAddr

/-- The loop of `startTAP` over the results of the successive `iface.Read` calls
(`.error` is a failed read, which is logged and skipped): the effects of all turns,
or the panic that ended the process. -/
def loop (ext : Unmodelled) (fakeMACAddr fakeIPAddr : Bytes) :
    List (Except String Bytes) → Except String Effects
  | [] => .ok Effects.none
  | .error msg :: rest =>
    match loop ext fakeMACAddr fakeIPAddr rest with
    | .error p => .error p
    | .ok e => .ok (Effects.append { writes := [], logs := ["iface read failed: " ++ msg] } e)
  | .ok frame :: rest =>
    match iteration ext fakeMACAddr fakeIPAddr frame with
    | .error p => .error p
    | .ok e1 =>
      match loop ext fakeMACAddr fakeIPAddr rest with
      | .error p => .error p
      | .ok e2 => .ok (e1.append e2)

/-- How `startTAP` goes on: it returns an error before the loop, or it runs the loop
with the two addresses it parsed. -/
inductive Start where
  | returned (err : String)
  | looping (fakeMACAddr fakeIPAddr : Bytes)
deriving DecidableEq

/-- The function `startTAP` of src/tap/main.go up to the loop (lines 50-64).
`createIface` and `setupIface` are the outcomes of the two set-up calls (none is
success); `parseMAC` and `parseIP` stand for `net.ParseMAC` and `net.ParseIP` of the
Go standard library, none being their failure (a nil address; the error value of
`net.ParseMAC` is assigned to the blank identifier). -/
def startTAP (createIface setupIface : Option String)
    (parseMAC parseIP : String → Option Bytes) (fakeMAC fakeIP : String) : Start :=
  match createIface with
  | some err => .returned ("error occured while create iface: " ++ err)
  | none =>
    match setupIface with
    | some err => .returned ("error occured while setup iface: " ++ err)
    | none =>
      let fakeMACAddr := (parseMAC fakeMAC).getD []
      let fakeIPAddr := (parseIP fakeIP).getD []
      .looping fakeMACAddr fakeIPAddr

end tap

namespace tun
open gopacket layers

/-- The reply layers of `handleICMPRequest` (src/tun/main.go, lines 77-90), and the
packet after the in-place swap of line 84. The unchecked type assertion on
`packet.Layer(layers.LayerTypeIPv4)` panics when the layer is missing. -/
def icmpReplyLayers (packet : Packet) (icmpPacket : ICMPv4) :
    Except String (Packet × List SerializableLayer) :=
  let icmpReplyPacket : ICMPv4 :=
    { TypeCode := ICMPv4TypeEchoReply, Id := icmpPacket.Id, Seq := icmpPacket.Seq,
      Checksum := 0, Payload := [] }
  match packet.Layer .IPv4 with
  | some (.ipv4 ipPacket0) =>
    let ipPacket := { ipPacket0 with DstIP := ipPacket0.SrcIP, SrcIP := ipPacket0.DstIP }
    let packet1 := packet.setLayer .IPv4 (.ipv4 ipPacket)
    .ok (packet1, [.ipv4 ipPacket, .icmpv4 icmpReplyPacket, .payload icmpPacket.Payload])
  | _ => .error "interface conversion: interface is nil, not *layers.IPv4"

/-- The function `handleICMPRequest` of src/tun/main.go: the packet as the call
leaves it, and what was written and logged. -/
def handleICMPRequest (packet : Packet) (icmpLayer : Layer) : Except String (Packet × Effects) :=
  match icmpLayer with
  | .icmpv4 icmpPacket =>
    if icmpPacket.Type = ICMPv4TypeEchoRequest then
      match icmpReplyLayers packet icmpPacket with
      | .error msg => .error msg
      | .ok (packet1, reply) =>
        match emit (SerializeLayers fixAll reply).2 with
        | .error msg => .error msg
        | .ok effects => .ok (writeBack packet1 (SerializeLayers fixAll reply).1, effects)
    else .ok (packet, Effects.none)
  | _ => .error "invalid memory address or nil pointer dereference"

/-- One turn of the loop of `startTUN` on a frame that was read (lines 60-66). -/
def iteration (ext : Unmodelled) (frame : Bytes) : Except String Effects :=
  let ethernetPacket := NewPacket ext frame .ipv4
  match ethernetPacket.Layer .ICMPv4 with
  | some icmpLayer =>
    match handleICMPRequest ethernetPacket icmpLayer with
    | .error msg => .error msg
    | .ok (_, e) => .ok e
  | none => .ok Effects.none

end tun

/-! ## Auxiliary definitions for the statements -/

/-- The bytes of an ARP message as `ARP.SerializeTo` writes them. -/
def arpBytes (arp : layers.ARP) : Bytes :=
  putUint16 arp.AddrType ++ putUint16 arp.Protocol
    ++ [arp.HwAddressSize % 256, arp.ProtAddressSize % 256] ++ putUint16 arp.Operation
    ++ arp.SourceHwAddress ++ arp.SourceProtAddress ++ arp.DstHwAddress ++ arp.DstProtAddress

/-! ## Concrete frames and identities used as inputs -/

/-- No decoder outside the model is consulted. -/
def noExt : gopacket.Unmodelled := fun _ _ => none

/-- The hardware address 02:00:00:00:00:01. -/
def exampleMAC : Bytes := [2, 0, 0, 0, 0, 1]

/-- The address 10.0.0.1 in the 16-byte form `net.ParseIP` returns. -/
def exampleIP : Bytes := [0, 0, 0, 0, 0, 0, 0, 0, 0, 0, 255, 255, 10, 0, 0, 1]

/-- The ARP layer of a request from aa:bb:cc:dd:ee:ff (10.0.0.5) for 10.0.0.1. -/
def exampleARPRequest : layers.ARP :=
  { AddrType := 1, Protocol := 0x0800, HwAddressSize := 6, ProtAddressSize := 4,
    Operation := 1,
    SourceHwAddress := [170, 187, 204, 221, 238, 255], SourceProtAddress := [10, 0, 0, 5],
    DstHwAddress := [0, 0, 0, 0, 0, 0], DstProtAddress := [10, 0, 0, 1] }

/-- The ping of end-to-end scenario 2 as an Ethernet frame: 10.0.0.5 to 10.0.0.1,
id 1, seq 1, payload "ping", from aa:bb:cc:dd:ee:ff to 02:00:00:00:00:01. -/
def examplePingFrame : Bytes :=
  [2, 0, 0, 0, 0, 1, 170, 187, 204, 221, 238, 255, 8, 0,
   69, 0, 0, 32, 18, 52, 64, 0, 64, 1, 20, 164, 10, 0, 0, 5, 10, 0, 0, 1,
   8, 0, 25, 45, 0, 1, 0, 1, 112, 105, 110, 103]

/-- The Ethernet header of `examplePingFrame`. -/
def examplePingEthernet : layers.Ethernet :=
  { SrcMAC := [170, 187, 204, 221, 238, 255], DstMAC := [2, 0, 0, 0, 0, 1],
    EthernetType := 0x0800, Length := 0 }

/-- The IPv4 header of `examplePingFrame`. -/
def examplePingIPv4 : layers.IPv4 :=
  { Version := 4, IHL := 5, TOS := 0, Length := 32, Id := 0x1234, Flags := 2, FragOffset := 0,
    TTL := 64, Protocol := 1, Checksum := 0x14a4, SrcIP := [10, 0, 0, 5], DstIP := [10, 0, 0, 1],
    Options := [], Padding := [] }

/-- The ICMPv4 layer of `examplePingFrame`: an echo request. -/
def examplePingICMP : layers.ICMPv4 :=
  { TypeCode := 0x0800, Checksum := 0x192d, Id := 1, Seq := 1,
    Payload := [112, 105, 110, 103] }

/-- The packet gopacket decodes from `examplePingFrame`. -/
def examplePingPacket : gopacket.Packet :=
  { layers := [.ethernet examplePingEthernet, .ipv4 examplePingIPv4, .icmpv4 examplePingICMP,
               .payload [112, 105, 110, 103]] }

/-- The packet gopacket decodes from the same ping read from a TUN interface (the
frame without its Ethernet header). -/
def examplePingPacketTun : gopacket.Packet :=
  { layers := [.ipv4 examplePingIPv4, .icmpv4 examplePingICMP, .payload [112, 105, 110, 103]] }

/-- The ICMPv4 layer the handlers build for a request (lines 95-99 of
src/tap/main.go, lines 77-81 of src/tun/main.go). -/
def echoReplyFor (icmpPacket : layers.ICMPv4) : layers.ICMPv4 :=
  { TypeCode := layers.ICMPv4TypeEchoReply, Id := icmpPacket.Id, Seq := icmpPacket.Seq,
    Checksum := 0, Payload := [] }

/-- What a handler returns once its reply layers are built: the outcome of
serializing them with FixLengths and ComputeChecksums, and the packet with the
serializer's changes to its Ethernet and IPv4 objects. -/
def serializeAndWrite (packet : gopacket.Packet) (reply : List gopacket.SerializableLayer) :
    Except String (gopacket.Packet × Effects) :=
  match emit (gopacket.SerializeLayers fixAll reply).2 with
  | .error msg => .error msg
  | .ok effects => .ok (writeBack packet (gopacket.SerializeLayers fixAll reply).1, effects)

/-! ## The standard Internet checksum, as the spec words it -/

/-- The 16-bit big-endian words of a byte sequence; an odd last byte is padded with
a zero byte. -/
def be16Words : Bytes → List Nat
  | [] => []
  | [b0] => [b0 * 256]
  | b0 :: b1 :: rest => (b0 * 256 + b1) :: be16Words rest

/-- One's-complement addition of two 16-bit values: a carry out of bit 15 is added
back in at bit 0. -/
def onesComplementAdd (a b : Nat) : Nat :=
  if a + b > 65535 then a + b - 65536 + 1 else a + b

/-- The spec's checksum (section 4.5, "standard one's-complement of the
one's-complement sum of 16-bit words"), written from the spec's words and RFC 1071,
not from the encoder. -/
def internetChecksum (data : Bytes) : Nat :=
  65535 - (be16Words data).foldl onesComplementAdd 0

/-- A byte sequence with the two bytes of a checksum field at `off` set to zero. -/
def clearChecksum (off : Nat) (b : Bytes) : Bytes := (b.set off 0).set (off + 1) 0

/-- The IPv4 header of an emitted IP packet, as a receiver delimits it: four bytes
for every unit of the header-length nibble. -/
def ipv4HeaderOf (pkt : Bytes) : Bytes := pkt.take (4 * (pkt.getD 0 0 % 16))

/-- The ICMPv4 message of an emitted IP packet, as a receiver delimits it: from the
end of the IPv4 header to the total length the header announces. -/
def icmpMessageOf (pkt : Bytes) : Bytes :=
  (pkt.take (getUint16 (pkt.drop 2))).drop (4 * (pkt.getD 0 0 % 16))

/-- The IPv4 header checksum of an emitted IP packet is the checksum of its header
with the checksum field zeroed. -/
def IPv4ChecksumHolds (pkt : Bytes) : Prop :=
  internetChecksum (clearChecksum 10 (ipv4HeaderOf pkt)) = getUint16 ((ipv4HeaderOf pkt).drop 10)

/-- The ICMPv4 checksum of an emitted IP packet is the checksum of the ICMPv4
message (type, code, rest of header, payload) with the checksum field zeroed. -/
def ICMPv4ChecksumHolds (pkt : Bytes) : Prop :=
  internetChecksum (clearChecksum 2 (icmpMessageOf pkt)) = getUint16 ((icmpMessageOf pkt).drop 2)

/-- Every element is a byte. -/
def ValidBytes (b : Bytes) : Prop := ∀ x ∈ b, x < 256

/-- The representative of a sum modulo 65535 that one's-complement addition keeps:
0 for 0, and otherwise the one in 1..65535. -/
def normalize16 (n : Nat) : Nat := if n = 0 then 0 else (n - 1) % 65535 + 1

/-- The checksum `ICMPv4.SerializeTo` computes for the layer `i` before the payload
`B`: over the 8 header bytes with a zero checksum field, and `B`. -/
def icmpChecksumFor (i : layers.ICMPv4) (B : Bytes) : Nat :=
  layers.tcpipChecksum
    (putUint16 i.TypeCode ++ [0, 0] ++ putUint16 i.Id ++ putUint16 i.Seq ++ B) 0

/-- The bytes of an ICMPv4 message as `ICMPv4.SerializeTo` writes them before the
payload `B` when it computes the checksum. -/
def icmpBytes (i : layers.ICMPv4) (B : Bytes) : Bytes :=
  putUint16 i.TypeCode ++ putUint16 (icmpChecksumFor i B) ++ putUint16 i.Id
    ++ putUint16 i.Seq ++ B

/-- The size one option takes in the option area, as `getIPv4OptionSize` counts it. -/
def optionSizeOf (o : layers.IPv4Option) : Nat :=
  if o.OptionType = 0 then 1 else if o.OptionType = 1 then 1 else o.OptionLength

/-- The sizes of the options, added up without truncation. -/
def optionsSize (opts : List layers.IPv4Option) : Nat := (opts.map optionSizeOf).sum

/-- The shape of an option the decoder builds: end-of-list, padding, or a type with
a one-byte length that covers the two leading bytes and the data. -/
def OptionWF (o : layers.IPv4Option) : Prop :=
  o.OptionType = 0 ∨ o.OptionType = 1 ∨
    (2 ≤ o.OptionLength ∧ o.OptionLength < 256 ∧ o.OptionData.length + 2 ≤ o.OptionLength)

/-- What holds of a layer the decoder built from at most `n` bytes: the byte slices
of an IPv4 layer hold bytes, its options have the shape the decoder gives them and
fit the option area of an IPv4 header, and the payload
of an ICMPv4 layer holds at most `n` bytes. -/
def LayerOK (n : Nat) : gopacket.Layer → Prop
  | .ipv4 ip =>
    ValidBytes ip.SrcIP ∧ ValidBytes ip.DstIP ∧ (∀ o ∈ ip.Options, ValidBytes o.OptionData)
      ∧ ip.getIPv4OptionSize ≤ 40 ∧ (∀ o ∈ ip.Options, OptionWF o)
      ∧ optionsSize ip.Options ≤ 40
  | .icmpv4 i => ValidBytes i.Payload ∧ i.Payload.length ≤ n
  | _ => True

/-- The ping of `examplePingFrame` as a TUN interface delivers it (no Ethernet
header). -/
def examplePingFrameTun : Bytes := examplePingFrame.drop 14

/-- The echo reply for `examplePingFrameTun`: 10.0.0.1 to 10.0.0.5, id 1, seq 1,
payload "ping". -/
def examplePingReplyTun : Bytes :=
  [69, 0, 0, 32, 18, 52, 64, 0, 64, 1, 20, 164, 10, 0, 0, 1, 10, 0, 0, 5,
   0, 0, 33, 45, 0, 1, 0, 1, 112, 105, 110, 103]

/-- The echo reply for `examplePingFrame`: the Ethernet header with the addresses
swapped, the packet of `examplePingReplyTun`, and padding to 60 bytes. -/
def examplePingReply : Bytes :=
  [170, 187, 204, 221, 238, 255, 2, 0, 0, 0, 0, 1, 8, 0] ++ examplePingReplyTun
    ++ [0, 0, 0, 0, 0, 0, 0, 0, 0, 0, 0, 0, 0, 0]

/-- An ARP request frame: aa:bb:cc:dd:ee:ff (10.0.0.5) asks who has 10.0.0.1. -/
def exampleARPRequestFrame : Bytes :=
  [255, 255, 255, 255, 255, 255, 170, 187, 204, 221, 238, 255, 8, 6,
   0, 1, 8, 0, 6, 4, 0, 1, 170, 187, 204, 221, 238, 255, 10, 0, 0, 5,
   0, 0, 0, 0, 0, 0, 10, 0, 0, 1]

/-- An ARP reply frame (operation 2): aa:bb:cc:dd:ee:ff tells 02:00:00:00:00:01 that
10.0.0.5 is at aa:bb:cc:dd:ee:ff. -/
def exampleARPReplyFrame : Bytes :=
  [2, 0, 0, 0, 0, 1, 170, 187, 204, 221, 238, 255, 8, 6,
   0, 1, 8, 0, 6, 4, 0, 2, 170, 187, 204, 221, 238, 255, 10, 0, 0, 5,
   2, 0, 0, 0, 0, 1, 10, 0, 0, 1]

/-- An Ethernet frame with EtherType IPv6 (0x86dd) whose IPv6 header names ICMPv4
(protocol 1) as its next header and carries the 8 bytes of an echo request. -/
def exampleIPv6Frame : Bytes :=
  [2, 0, 0, 0, 0, 1, 170, 187, 204, 221, 238, 255, 134, 221,
   96, 0, 0, 0, 0, 8, 1, 64,
   0, 0, 0, 0, 0, 0, 0, 0, 0, 0, 0, 0, 0, 0, 0, 1,
   0, 0, 0, 0, 0, 0, 0, 0, 0, 0, 0, 0, 0, 0, 0, 2,
   8, 0, 247, 253, 0, 1, 0, 1]

/-- The frame the ARP handler writes for `exampleARPRequestFrame` and for
`exampleARPReplyFrame` alike, with the identity (02:00:00:00:00:01, 10.0.0.1). -/
def exampleARPAnswer : Bytes :=
  [170, 187, 204, 221, 238, 255, 2, 0, 0, 0, 0, 1, 8, 6,
   0, 1, 8, 0, 6, 4, 0, 2, 2, 0, 0, 0, 0, 1, 10, 0, 0, 1,
   170, 187, 204, 221, 238, 255, 10, 0, 0, 5,
   0, 0, 0, 0, 0, 0, 0, 0, 0, 0, 0, 0, 0, 0, 0, 0, 0, 0]

/-- The first ARP layer of a layer stack, as `Packet.Layer` finds it. -/
def firstARP (st : List gopacket.Layer) : Option gopacket.Layer :=
  st.find? (fun l => decide (l.LayerType = gopacket.LayerType.ARP))

/-- The first ICMPv4 layer of a layer stack, as `Packet.Layer` finds it. -/
def firstICMPv4 (st : List gopacket.Layer) : Option gopacket.Layer :=
  st.find? (fun l => decide (l.LayerType = gopacket.LayerType.ICMPv4))

/-! ## Serialization lemmas -/

theorem ARP_SerializeTo_fixNothing (arp : layers.ARP) (b : Bytes) :
    arp.SerializeTo b fixNothing = (arp, .ok (arpBytes arp ++ b)) := by
  simp [layers.ARP.SerializeTo, fixNothing, arpBytes]

theorem Ethernet_SerializeTo_ok (eth : layers.Ethernet) (b : Bytes)
    (opts : gopacket.SerializeOptions)
    (hd : eth.DstMAC.length = 6) (hs : eth.SrcMAC.length = 6) (hl : eth.Length = 0)
    (ht : eth.EthernetType ≠ layers.EthernetTypeLLC) :
    eth.SerializeTo b opts =
      (eth, .ok (layers.padTo60 (eth.DstMAC ++ eth.SrcMAC ++ putUint16 eth.EthernetType ++ b))) := by
  simp [layers.Ethernet.SerializeTo, hd, hs, hl, ht]

theorem SerializeLayers_cons_ok (opts : gopacket.SerializeOptions)
    (l : gopacket.SerializableLayer) (rest rest1 : List gopacket.SerializableLayer) (b : Bytes)
    (h : gopacket.SerializeLayers opts rest = (rest1, .ok b)) :
    gopacket.SerializeLayers opts (l :: rest) =
      (l.SerializeTo b opts).map (fun l1 => l1 :: rest1) id := by
  rw [gopacket.SerializeLayers, h]

theorem SerializeLayers_single (opts : gopacket.SerializeOptions)
    (l : gopacket.SerializableLayer) :
    gopacket.SerializeLayers opts [l] = (l.SerializeTo [] opts).map (fun l1 => [l1]) id :=
  SerializeLayers_cons_ok opts l [] [] [] rfl

theorem SerializeLayers_eth_arp (eth : layers.Ethernet) (a : layers.ARP)
    (hd : eth.DstMAC.length = 6) (hs : eth.SrcMAC.length = 6) (hl : eth.Length = 0)
    (ht : eth.EthernetType ≠ layers.EthernetTypeLLC) :
    gopacket.SerializeLayers fixNothing [.ethernet eth, .arp a] =
      ([.ethernet eth, .arp a],
        .ok (layers.padTo60
          (eth.DstMAC ++ eth.SrcMAC ++ putUint16 eth.EthernetType ++ arpBytes a))) := by
  have h1 : gopacket.SerializeLayers fixNothing [.arp a] = ([.arp a], .ok (arpBytes a)) := by
    rw [SerializeLayers_single]
    simp only [gopacket.SerializableLayer.SerializeTo, ARP_SerializeTo_fixNothing, Prod.map, id,
      List.append_nil]
  rw [SerializeLayers_cons_ok _ _ _ _ _ h1]
  simp only [gopacket.SerializableLayer.SerializeTo, Prod.map, id]
  rw [Ethernet_SerializeTo_ok _ _ _ hd hs hl ht]

theorem handleARPRequest_writes (a : layers.ARP) (M I : Bytes)
    (hH : a.SourceHwAddress.length = 6) (hM : M.length = 6) :
    tap.handleARPRequest (.arp a) M I =
      .ok { writes := [layers.padTo60 (a.SourceHwAddress ++ M ++ [8, 6]
                        ++ [0, 1, 8, 0, 6, 4, 0, 2] ++ M ++ net.To4 I ++ a.SourceHwAddress
                        ++ a.SourceProtAddress)],
            logs := [] } := by
  simp only [tap.handleARPRequest, tap.arpReplyLayers]
  rw [SerializeLayers_eth_arp _ _ hH hM rfl
    (by simp only [layers.EthernetTypeARP, layers.EthernetTypeLLC]; decide)]
  simp only [emit, arpBytes, putUint16, layers.EthernetTypeARP, layers.LinkTypeEthernet,
    layers.EthernetTypeIPv4, layers.ARPReply]
  norm_num

/-! ## The ARP responder -/

/-- C1. ARP reply correctness: for a valid ARP request with senderHW = H,
senderProto = P, targetProto = T and an identity (M, I) with M of 6 bytes, I a valid
IPv4 address and T equal to I, the reply stack of handleARPRequest is an Ethernet
header (sourceMAC = M, destMAC = H, etherType = ARP) and an ARP message with
operation = reply, senderHW = M, senderProto = the 4-byte form of I, targetHW = H,
targetProto = P; the handler writes that stack, serialized, as one frame. -/
theorem arp_reply_correct (arpPacket : layers.ARP) (M I H P T : Bytes)
    (_hop : arpPacket.Operation = layers.ARPRequest)
    (hH : arpPacket.SourceHwAddress = H) (hP : arpPacket.SourceProtAddress = P)
    (_hT : arpPacket.DstProtAddress = T) (hHlen : H.length = 6)
    (hM : M.length = 6) (_hI : (net.To4 I).length = 4) (_hTI : T = net.To4 I) :
    ∃ eth arp,
      tap.arpReplyLayers arpPacket M I = [.ethernet eth, .arp arp] ∧
      arp.Operation = layers.ARPReply ∧ arp.SourceHwAddress = M ∧
      arp.SourceProtAddress = net.To4 I ∧ arp.DstHwAddress = H ∧ arp.DstProtAddress = P ∧
      eth.SrcMAC = M ∧ eth.DstMAC = H ∧ eth.EthernetType = layers.EthernetTypeARP ∧
      tap.handleARPRequest (.arp arpPacket) M I =
        .ok { writes := [layers.padTo60 (H ++ M ++ [8, 6] ++ [0, 1, 8, 0, 6, 4, 0, 2]
                          ++ M ++ net.To4 I ++ H ++ P)],
              logs := [] } := by
  subst hH hP
  exact ⟨_, _, rfl, rfl, rfl, rfl, rfl, rfl, rfl, rfl, rfl,
    handleARPRequest_writes arpPacket M I hHlen hM⟩

/-- Witness for C1: the request of end-to-end scenario 1 and the identity
(02:00:00:00:00:01, 10.0.0.1). -/
theorem arp_reply_correct_witness :
    ∃ eth arp,
      tap.arpReplyLayers exampleARPRequest exampleMAC exampleIP = [.ethernet eth, .arp arp] ∧
      arp.Operation = layers.ARPReply ∧ arp.SourceHwAddress = exampleMAC ∧
      arp.SourceProtAddress = net.To4 exampleIP ∧
      arp.DstHwAddress = [170, 187, 204, 221, 238, 255] ∧ arp.DstProtAddress = [10, 0, 0, 5] ∧
      eth.SrcMAC = exampleMAC ∧ eth.DstMAC = [170, 187, 204, 221, 238, 255] ∧
      eth.EthernetType = layers.EthernetTypeARP ∧
      tap.handleARPRequest (.arp exampleARPRequest) exampleMAC exampleIP =
        .ok { writes := [layers.padTo60 ([170, 187, 204, 221, 238, 255] ++ exampleMAC ++ [8, 6]
                          ++ [0, 1, 8, 0, 6, 4, 0, 2] ++ exampleMAC ++ net.To4 exampleIP
                          ++ [170, 187, 204, 221, 238, 255] ++ [10, 0, 0, 5])],
              logs := [] } :=
  arp_reply_correct exampleARPRequest exampleMAC exampleIP [170, 187, 204, 221, 238, 255]
    [10, 0, 0, 5] [10, 0, 0, 1] rfl rfl rfl rfl rfl rfl (by decide) (by decide)

/-- C10. The ARP reply does not depend on what the request asks for: two ARP
messages with the same senderHW and senderProto, whatever their target addresses,
operation and other fields are, give the same reply stack and the same outcome of
handleARPRequest for the same identity; the target protocol address is never
compared with the configured address. -/
theorem arp_reply_ignores_target (a1 a2 : layers.ARP) (M I : Bytes)
    (hH : a1.SourceHwAddress = a2.SourceHwAddress)
    (hP : a1.SourceProtAddress = a2.SourceProtAddress) :
    tap.arpReplyLayers a1 M I = tap.arpReplyLayers a2 M I ∧
    tap.handleARPRequest (.arp a1) M I = tap.handleARPRequest (.arp a2) M I := by
  have h : tap.arpReplyLayers a1 M I = tap.arpReplyLayers a2 M I := by
    simp only [tap.arpReplyLayers, hH, hP]
  exact ⟨h, by simp only [tap.handleARPRequest, h]⟩

/-- Witness for C10: the request for 10.0.0.1 and a message from the same sender
that asks for 192.168.7.9 get the same reply. -/
theorem arp_reply_ignores_target_witness :
    tap.arpReplyLayers exampleARPRequest exampleMAC exampleIP =
      tap.arpReplyLayers { exampleARPRequest with DstProtAddress := [192, 168, 7, 9] }
        exampleMAC exampleIP ∧
    tap.handleARPRequest (.arp exampleARPRequest) exampleMAC exampleIP =
      tap.handleARPRequest (.arp { exampleARPRequest with DstProtAddress := [192, 168, 7, 9] })
        exampleMAC exampleIP :=
  arp_reply_ignores_target exampleARPRequest
    { exampleARPRequest with DstProtAddress := [192, 168, 7, 9] } exampleMAC exampleIP rfl rfl

/-! ## The ICMP echo responder -/

theorem find_replaceFirst_ne (f g : gopacket.Layer → Bool) (new : gopacket.Layer)
    (hnew : g new = false) (hfg : ∀ l, f l = true → g l = false) (ls : List gopacket.Layer) :
    (gopacket.replaceFirst f new ls).find? g = ls.find? g := by
  induction ls with
  | nil => rfl
  | cons l ls ih =>
    by_cases hf : f l = true
    · simp only [gopacket.replaceFirst, hf, if_true, List.find?, hnew, hfg l hf]
    · simp only [gopacket.replaceFirst, hf, if_false, List.find?, ih, Bool.false_eq_true]

theorem find_replaceFirst_self (f : gopacket.Layer → Bool) (new old : gopacket.Layer)
    (hnew : f new = true) (ls : List gopacket.Layer) (h : ls.find? f = some old) :
    (gopacket.replaceFirst f new ls).find? f = some new := by
  induction ls with
  | nil => simp at h
  | cons l ls ih =>
    by_cases hf : f l = true
    · simp only [gopacket.replaceFirst, hf, if_true, List.find?, hnew]
    · have hf' : f l = false := by simpa using hf
      simp only [List.find?, hf'] at h
      simp only [gopacket.replaceFirst, hf, if_false, List.find?, hf', ih h, Bool.false_eq_true]

theorem Layer_setLayer_ne (p : gopacket.Packet) (t t1 : gopacket.LayerType)
    (new : gopacket.Layer) (hnew : new.LayerType = t) (hne : t ≠ t1) :
    (p.setLayer t new).Layer t1 = p.Layer t1 := by
  unfold gopacket.Packet.setLayer gopacket.Packet.Layer
  apply find_replaceFirst_ne
  · simp only [hnew, decide_eq_false_iff_not]; exact hne
  · intro l hl
    simp only [decide_eq_true_eq] at hl
    simp only [hl, decide_eq_false_iff_not]; exact hne

theorem Layer_setLayer_self (p : gopacket.Packet) (t : gopacket.LayerType)
    (new old : gopacket.Layer) (hnew : new.LayerType = t) (h : p.Layer t = some old) :
    (p.setLayer t new).Layer t = some new := by
  unfold gopacket.Packet.setLayer gopacket.Packet.Layer
  exact find_replaceFirst_self _ new old (by simp only [hnew, decide_True]) _ h

theorem Layer_setIPv4_ne (p : gopacket.Packet) (ip : layers.IPv4) (t1 : gopacket.LayerType)
    (hne : gopacket.LayerType.IPv4 ≠ t1) :
    (p.setLayer .IPv4 (.ipv4 ip)).Layer t1 = p.Layer t1 :=
  Layer_setLayer_ne p .IPv4 t1 (.ipv4 ip) rfl hne

theorem Layer_setEthernet_ne (p : gopacket.Packet) (eth : layers.Ethernet)
    (t1 : gopacket.LayerType) (hne : gopacket.LayerType.Ethernet ≠ t1) :
    (p.setLayer .Ethernet (.ethernet eth)).Layer t1 = p.Layer t1 :=
  Layer_setLayer_ne p .Ethernet t1 (.ethernet eth) rfl hne

theorem Layer_setIPv4_self (p : gopacket.Packet) (ip : layers.IPv4) (old : gopacket.Layer)
    (h : p.Layer .IPv4 = some old) :
    (p.setLayer .IPv4 (.ipv4 ip)).Layer .IPv4 = some (.ipv4 ip) :=
  Layer_setLayer_self p .IPv4 (.ipv4 ip) old rfl h

theorem Layer_setEthernet_self (p : gopacket.Packet) (eth : layers.Ethernet)
    (old : gopacket.Layer) (h : p.Layer .Ethernet = some old) :
    (p.setLayer .Ethernet (.ethernet eth)).Layer .Ethernet = some (.ethernet eth) :=
  Layer_setLayer_self p .Ethernet (.ethernet eth) old rfl h

theorem tun_icmpReplyLayers_eq (packet : gopacket.Packet) (icmp : layers.ICMPv4)
    (ip : layers.IPv4) (hip : packet.Layer .IPv4 = some (.ipv4 ip)) :
    tun.icmpReplyLayers packet icmp =
      .ok (packet.setLayer .IPv4 (.ipv4 { ip with DstIP := ip.SrcIP, SrcIP := ip.DstIP }),
           [.ipv4 { ip with DstIP := ip.SrcIP, SrcIP := ip.DstIP },
            .icmpv4 (echoReplyFor icmp), .payload icmp.Payload]) := by
  simp only [tun.icmpReplyLayers, hip, echoReplyFor]

theorem tap_icmpReplyLayers_eq (packet : gopacket.Packet) (icmp : layers.ICMPv4)
    (ip : layers.IPv4) (eth : layers.Ethernet)
    (hip : packet.Layer .IPv4 = some (.ipv4 ip))
    (heth : packet.Layer .Ethernet = some (.ethernet eth)) :
    tap.icmpReplyLayers packet icmp =
      .ok ((packet.setLayer .IPv4 (.ipv4 { ip with DstIP := ip.SrcIP, SrcIP := ip.DstIP })).setLayer
              .Ethernet (.ethernet { eth with DstMAC := eth.SrcMAC, SrcMAC := eth.DstMAC }),
           [.ethernet { eth with DstMAC := eth.SrcMAC, SrcMAC := eth.DstMAC },
            .ipv4 { ip with DstIP := ip.SrcIP, SrcIP := ip.DstIP },
            .icmpv4 (echoReplyFor icmp), .payload icmp.Payload]) := by
  have h2 : (packet.setLayer .IPv4 (.ipv4 { ip with DstIP := ip.SrcIP, SrcIP := ip.DstIP })).Layer
      .Ethernet = some (.ethernet eth) := by
    rw [Layer_setIPv4_ne packet _ .Ethernet (by decide)]; exact heth
  simp only [tap.icmpReplyLayers, hip, h2, echoReplyFor]

theorem tun_handle_echo (packet : gopacket.Packet) (icmp : layers.ICMPv4) (ip : layers.IPv4)
    (hty : icmp.Type = layers.ICMPv4TypeEchoRequest)
    (hip : packet.Layer .IPv4 = some (.ipv4 ip)) :
    tun.handleICMPRequest packet (.icmpv4 icmp) =
      serializeAndWrite
        (packet.setLayer .IPv4 (.ipv4 { ip with DstIP := ip.SrcIP, SrcIP := ip.DstIP }))
        [.ipv4 { ip with DstIP := ip.SrcIP, SrcIP := ip.DstIP },
         .icmpv4 (echoReplyFor icmp), .payload icmp.Payload] := by
  simp only [tun.handleICMPRequest, hty, if_true, tun_icmpReplyLayers_eq packet icmp ip hip,
    serializeAndWrite]

theorem tap_handle_echo (packet : gopacket.Packet) (icmp : layers.ICMPv4) (ip : layers.IPv4)
    (eth : layers.Ethernet) (hty : icmp.Type = layers.ICMPv4TypeEchoRequest)
    (hip : packet.Layer .IPv4 = some (.ipv4 ip))
    (heth : packet.Layer .Ethernet = some (.ethernet eth)) :
    tap.handleICMPRequest packet (.icmpv4 icmp) =
      serializeAndWrite
        ((packet.setLayer .IPv4 (.ipv4 { ip with DstIP := ip.SrcIP, SrcIP := ip.DstIP })).setLayer
              .Ethernet (.ethernet { eth with DstMAC := eth.SrcMAC, SrcMAC := eth.DstMAC }))
        [.ethernet { eth with DstMAC := eth.SrcMAC, SrcMAC := eth.DstMAC },
         .ipv4 { ip with DstIP := ip.SrcIP, SrcIP := ip.DstIP },
         .icmpv4 (echoReplyFor icmp), .payload icmp.Payload] := by
  simp only [tap.handleICMPRequest, hty, if_true,
    tap_icmpReplyLayers_eq packet icmp ip eth hip heth, serializeAndWrite]

theorem tun_handle_other (packet : gopacket.Packet) (icmp : layers.ICMPv4)
    (hty : icmp.Type ≠ layers.ICMPv4TypeEchoRequest) :
    tun.handleICMPRequest packet (.icmpv4 icmp) = .ok (packet, Effects.none) := by
  simp only [tun.handleICMPRequest, hty, if_false]

theorem tap_handle_other (packet : gopacket.Packet) (icmp : layers.ICMPv4)
    (hty : icmp.Type ≠ layers.ICMPv4TypeEchoRequest) :
    tap.handleICMPRequest packet (.icmpv4 icmp) = .ok (packet, Effects.none) := by
  simp only [tap.handleICMPRequest, hty, if_false]

theorem emit_ne_none (r : gopacket.SerializeResult) : emit r ≠ .ok Effects.none := by
  cases r <;> simp [emit, Effects.none]

theorem serializeAndWrite_ne_none (p q : gopacket.Packet)
    (reply : List gopacket.SerializableLayer) :
    serializeAndWrite p reply ≠ .ok (q, Effects.none) := by
  unfold serializeAndWrite
  have h := emit_ne_none (gopacket.SerializeLayers fixAll reply).2
  cases he : emit (gopacket.SerializeLayers fixAll reply).2 with
  | error msg => simp
  | ok e =>
    rw [he] at h
    simp only [ne_eq, Except.ok.injEq, Prod.mk.injEq, not_and]
    intro _ h2
    exact h (by rw [h2])

/-! ## The encoder's checksums compute the standard Internet checksum -/

theorem foldCarryLoop_eq (fuel s : Nat) (h : s ≤ fuel) :
    layers.foldCarryLoop fuel s = normalize16 s := by
  induction fuel generalizing s with
  | zero =>
    have hs : s = 0 := by omega
    subst hs; rfl
  | succ n ih =>
    unfold layers.foldCarryLoop
    split
    · unfold normalize16; split <;> omega
    · rw [ih _ (by omega)]
      unfold normalize16
      split <;> split <;> omega

theorem foldCarry_eq (s : Nat) : layers.foldCarry s = normalize16 s :=
  foldCarryLoop_eq s s (Nat.le_refl s)

theorem be16Words_le (data : Bytes) (hv : ValidBytes data) : ∀ w ∈ be16Words data, w ≤ 65535 := by
  induction data using be16Words.induct with
  | case1 => intro w hw; simp [be16Words] at hw
  | case2 b0 =>
    intro w hw
    have h0 : b0 < 256 := hv b0 (by simp)
    simp only [be16Words, List.mem_singleton] at hw
    omega
  | case3 b0 b1 rest ih =>
    intro w hw
    have h0 : b0 < 256 := hv b0 (by simp)
    have h1 : b1 < 256 := hv b1 (by simp)
    simp only [be16Words, List.mem_cons] at hw
    rcases hw with hw | hw
    · omega
    · exact ih (fun x hx => hv x (by simp [hx])) w hw

theorem foldl_onesComplementAdd (ws : List Nat) (hw : ∀ w ∈ ws, w ≤ 65535) (a : Nat) :
    ws.foldl onesComplementAdd (normalize16 a) = normalize16 (a + ws.sum) := by
  induction ws generalizing a with
  | nil => simp
  | cons w ws ih =>
    have h0 : w ≤ 65535 := hw w (by simp)
    have hstep : onesComplementAdd (normalize16 a) w = normalize16 (a + w) := by
      unfold onesComplementAdd normalize16
      split <;> split <;> split <;> omega
    simp only [List.foldl_cons, List.sum_cons, hstep]
    rw [ih (fun x hx => hw x (by simp [hx])) (a + w), Nat.add_assoc]

theorem internetChecksum_eq (data : Bytes) (hv : ValidBytes data) :
    internetChecksum data = 65535 - normalize16 (be16Words data).sum := by
  have h := foldl_onesComplementAdd (be16Words data) (be16Words_le data hv) 0
  simp only [Nat.zero_add] at h
  have h0 : normalize16 0 = 0 := rfl
  rw [h0] at h
  rw [internetChecksum, h]

theorem be16Words_sum_le (data : Bytes) (hv : ValidBytes data) :
    (be16Words data).sum ≤ 65536 * data.length := by
  induction data using be16Words.induct with
  | case1 => simp [be16Words]
  | case2 b0 =>
    have h0 : b0 < 256 := hv b0 (by simp)
    simp only [be16Words, List.sum_cons, List.sum_nil, List.length_singleton]
    omega
  | case3 b0 b1 rest ih =>
    have h0 : b0 < 256 := hv b0 (by simp)
    have h1 : b1 < 256 := hv b1 (by simp)
    have := ih (fun x hx => hv x (by simp [hx]))
    simp only [be16Words, List.sum_cons, List.length_cons]
    omega

theorem tcpipChecksumLoop_eq (data : Bytes) (acc : Nat) (hv : ValidBytes data)
    (hb : acc + 65536 * data.length < 4294967296) :
    layers.tcpipChecksumLoop data acc = acc + (be16Words data).sum := by
  induction data, acc using layers.tcpipChecksumLoop.induct with
  | case1 acc => simp [layers.tcpipChecksumLoop, be16Words]
  | case2 b0 acc =>
    have h0 : b0 < 256 := hv b0 (by simp)
    simp only [List.length_singleton] at hb
    simp only [layers.tcpipChecksumLoop, be16Words, List.sum_cons, List.sum_nil]
    omega
  | case3 b0 b1 rest acc ih =>
    have h0 : b0 < 256 := hv b0 (by simp)
    have h1 : b1 < 256 := hv b1 (by simp)
    simp only [List.length_cons] at hb
    have e : ((acc + b0 * 256) % 4294967296 + b1) % 4294967296 = acc + b0 * 256 + b1 := by
      omega
    have ih1 := ih (fun x hx => hv x (by simp [hx])) (by omega)
    simp only [layers.tcpipChecksumLoop, be16Words, List.sum_cons]
    rw [ih1]
    omega

theorem tcpipChecksum_eq (data : Bytes) (hv : ValidBytes data) (hlen : data.length ≤ 65535) :
    layers.tcpipChecksum data 0 = internetChecksum data := by
  rw [layers.tcpipChecksum, tcpipChecksumLoop_eq data 0 hv (by omega), foldCarry_eq,
    internetChecksum_eq data hv, Nat.zero_add]

theorem checksumLoop_eq (data : Bytes) (acc s : Nat) (hv : ValidBytes data)
    (hb : acc + 65536 * data.length < 4294967296)
    (h : layers.checksumLoop data acc = some s) : s = acc + (be16Words data).sum := by
  induction data, acc using layers.checksumLoop.induct with
  | case1 acc =>
    simp only [layers.checksumLoop, Option.some.injEq] at h
    simp [be16Words, h]
  | case2 b0 acc => simp [layers.checksumLoop] at h
  | case3 b0 b1 rest acc ih =>
    have h0 : b0 < 256 := hv b0 (by simp)
    have h1 : b1 < 256 := hv b1 (by simp)
    simp only [List.length_cons] at hb
    have e : ((acc + b0 * 256) % 4294967296 + b1) % 4294967296 = acc + b0 * 256 + b1 := by
      omega
    simp only [layers.checksumLoop] at h
    have := ih (fun x hx => hv x (by simp [hx])) (by omega) h
    simp only [be16Words, List.sum_cons]
    omega

/-! ## What a successful IPv4 serialization leaves in the buffer -/

theorem take_set_of_le (l : Bytes) (i m v : Nat) (h : m ≤ i) :
    (l.set i v).take m = l.take m := by
  induction l generalizing i m with
  | nil => simp
  | cons a l ih =>
    cases m with
    | zero => simp
    | succ m =>
      cases i with
      | zero => omega
      | succ i => simp only [List.set_cons_succ, List.take_succ_cons, ih i m (by omega)]

theorem length_copyAt (b : Bytes) (n : Nat) (src : Bytes) :
    (copyAt b n src).length = b.length := by
  induction b, n, src using copyAt.induct with
  | case1 => simp [copyAt]
  | case2 b bs => simp [copyAt]
  | case3 b bs s ss ih => simp [copyAt, ih]
  | case4 b bs n src ih => simp [copyAt, ih]

theorem take_copyAt (b : Bytes) (n : Nat) (src : Bytes) (m : Nat) (h : m ≤ n) :
    (copyAt b n src).take m = b.take m := by
  induction b, n, src using copyAt.induct generalizing m with
  | case1 => simp [copyAt]
  | case2 b bs => simp [copyAt]
  | case3 b bs s ss ih =>
    have hm : m = 0 := by omega
    subst hm; simp
  | case4 b bs n src ih =>
    cases m with
    | zero => simp
    | succ m => simp only [copyAt, List.take_succ_cons, ih m (by omega)]

theorem valid_copyAt (b : Bytes) (n : Nat) (src : Bytes) (hb : ValidBytes b)
    (hs : ValidBytes src) : ValidBytes (copyAt b n src) := by
  induction b, n, src using copyAt.induct with
  | case1 => intro x hx; simp [copyAt] at hx
  | case2 b bs => simpa [copyAt] using hb
  | case3 b bs s ss ih =>
    intro x hx
    simp only [copyAt, List.mem_cons] at hx
    rcases hx with hx | hx
    · subst hx; exact hs _ (by simp)
    · exact ih (fun y hy => hb y (by simp [hy])) (fun y hy => hs y (by simp [hy])) x hx
  | case4 b bs n src ih =>
    intro x hx
    simp only [copyAt, List.mem_cons] at hx
    rcases hx with hx | hx
    · subst hx; exact hb _ (by simp)
    · exact ih (fun y hy => hb y (by simp [hy])) hs x hx

theorem copyAt_two (b : Bytes) (n x y : Nat) (h : n + 2 ≤ b.length) :
    copyAt b n [x, y] = (b.set n x).set (n + 1) y := by
  induction b generalizing n with
  | nil => simp at h
  | cons a l ih =>
    cases n with
    | zero =>
      cases l with
      | nil => simp at h
      | cons a2 l2 =>
        cases l2 with
        | nil => simp [copyAt]
        | cons a3 l3 => simp [copyAt]
    | succ n =>
      simp only [List.length_cons] at h
      simp only [copyAt, List.set_cons_succ, ih n (by omega)]

theorem valid_set (b : Bytes) (i v : Nat) (hb : ValidBytes b) (hv : v < 256) :
    ValidBytes (b.set i v) := by
  intro x hx
  rcases List.mem_or_eq_of_mem_set hx with h | h
  · exact hb x h
  · omega

theorem store_inv (bytes : Bytes) (i v : Nat) (b1 : Bytes) (h : layers.store bytes i v = some b1) :
    b1.length = bytes.length ∧ (∀ m, m ≤ i → b1.take m = bytes.take m) ∧
      (ValidBytes bytes → ValidBytes b1) := by
  unfold layers.store at h
  split at h
  · simp only [Option.some.injEq] at h
    subst h
    refine ⟨by simp, fun m hm => take_set_of_le _ _ _ _ hm, fun hv => ?_⟩
    exact valid_set _ _ _ hv (Nat.mod_lt _ (by decide))
  · simp at h

theorem putOptions_inv (opts : List layers.IPv4Option) :
    ∀ (cur : Nat) (bytes out : Bytes), layers.putOptions opts cur bytes = .ok out →
      out.length = bytes.length ∧ out.take cur = bytes.take cur ∧
      (ValidBytes bytes → (∀ o ∈ opts, ValidBytes o.OptionData) → ValidBytes out) := by
  induction opts with
  | nil =>
    intro cur bytes out h
    simp only [layers.putOptions, gopacket.SerializeResult.ok.injEq] at h
    subst h
    exact ⟨rfl, rfl, fun hv _ => hv⟩
  | cons opt rest ih =>
    intro cur bytes out h
    unfold layers.putOptions at h
    split at h
    · -- end of option list
      split at h
      · simp at h
      · rename_i b1 hs
        obtain ⟨hl, ht, hv⟩ := store_inv _ _ _ _ hs
        obtain ⟨hl2, ht2, hv2⟩ := ih _ _ _ h
        refine ⟨by rw [hl2, hl], ?_, fun hb ho => hv2 (hv hb) (fun o h1 => ho o (by simp [h1]))⟩
        have := congrArg (List.take cur) ht2
        simp only [List.take_take, Nat.min_eq_left (Nat.le_succ cur)] at this
        rw [this, ht cur (Nat.le_refl _)]
    · split at h
      · split at h
        · simp at h
        · rename_i b1 hs
          obtain ⟨hl, ht, hv⟩ := store_inv _ _ _ _ hs
          obtain ⟨hl2, ht2, hv2⟩ := ih _ _ _ h
          refine ⟨by rw [hl2, hl], ?_, fun hb ho => hv2 (hv hb) (fun o h1 => ho o (by simp [h1]))⟩
          have := congrArg (List.take cur) ht2
          simp only [List.take_take, Nat.min_eq_left (Nat.le_succ cur)] at this
          rw [this, ht cur (Nat.le_refl _)]
      · split at h
        · simp at h
        · rename_i b1 hs
          split at h
          · simp at h
          · rename_i b2 hs2
            split at h
            · simp at h
            · split at h
              · simp at h
              · obtain ⟨hl, ht, hv⟩ := store_inv _ _ _ _ hs
                obtain ⟨hl1, ht1, hv1⟩ := store_inv _ _ _ _ hs2
                obtain ⟨hl2, ht2, hv2⟩ := ih _ _ _ h
                refine ⟨?_, ?_, fun hb ho => ?_⟩
                · rw [hl2, length_copyAt, hl1, hl]
                · have := congrArg (List.take cur) ht2
                  rename_i hcond
                  have hle : cur ≤ cur + opt.OptionLength := Nat.le_add_right _ _
                  simp only [List.take_take, Nat.min_eq_left hle] at this
                  rw [this, take_copyAt _ _ _ _ (by omega), ht1 cur (by omega),
                    ht cur (Nat.le_refl _)]
                · exact hv2 (valid_copyAt _ _ _ (hv1 (hv hb)) (ho opt (by simp)))
                    (fun o h1 => ho o (by simp [h1]))

theorem valid_append (a b : Bytes) (ha : ValidBytes a) (hb : ValidBytes b) :
    ValidBytes (a ++ b) := by
  intro x hx
  rcases List.mem_append.mp hx with h | h
  · exact ha x h
  · exact hb x h

theorem valid_putUint16 (v : Nat) : ValidBytes (putUint16 v) := by
  intro x hx
  simp only [putUint16, List.mem_cons, List.mem_singleton, List.not_mem_nil, or_false] at hx
  rcases hx with hx | hx <;> omega

theorem To4_length (addr : Bytes) (h : net.To4 addr ≠ []) : (net.To4 addr).length = 4 := by
  unfold net.To4 at h ⊢
  split
  · assumption
  · split
    · rename_i h16
      simp only [List.length_take, List.length_drop, h16.1]
      decide
    · rename_i h1 h2
      rw [if_neg h1, if_neg h2] at h
      exact absurd rfl h

theorem To4_valid (addr : Bytes) (h : ValidBytes addr) : ValidBytes (net.To4 addr) := by
  unfold net.To4
  split
  · exact h
  · split
    · intro x hx
      exact h x (List.mem_of_mem_drop (List.mem_of_mem_take hx))
    · intro x hx; simp at hx

theorem checkIPv4Address_ok (addr src : Bytes) (h : layers.checkIPv4Address addr = .ok src) :
    src = net.To4 addr ∧ src.length = 4 := by
  unfold layers.checkIPv4Address at h
  split at h
  · rename_i hne
    simp only [Except.ok.injEq] at h
    subst h
    exact ⟨rfl, To4_length addr hne⟩
  · split at h <;> simp at h

theorem getIPv4OptionSize_mod (ip : layers.IPv4) : ip.getIPv4OptionSize % 4 = 0 := by
  unfold layers.IPv4.getIPv4OptionSize
  simp only
  split <;> omega

theorem IPv4_SerializeTo_inv (ip : layers.IPv4) (b : Bytes) (ip1 : layers.IPv4) (out : Bytes)
    (h : ip.SerializeTo b fixAll = (ip1, .ok out)) :
    ∃ bytes c,
      layers.checksum bytes = some c ∧ out = copyAt bytes 10 (putUint16 c) ++ b ∧
      bytes.length = 20 + ip.getIPv4OptionSize ∧
      bytes.take 4 =
        [((ip.Version * 16) % 256) ||| ((5 + ip.getIPv4OptionSize / 4) % 256 % 256),
          ip.TOS % 256]
          ++ putUint16 ((20 + ip.getIPv4OptionSize + b.length) % 65536) ∧
      (ValidBytes ip.SrcIP → ValidBytes ip.DstIP → (∀ o ∈ ip.Options, ValidBytes o.OptionData) →
        ValidBytes bytes) ∧
      ip1.SrcIP = net.To4 ip.SrcIP ∧ ip1.DstIP = net.To4 ip.DstIP ∧
      ip1.SrcIP.length = 4 ∧ ip1.DstIP.length = 4 := by
  unfold layers.IPv4.SerializeTo at h
  simp only [fixAll, if_true] at h
  split at h
  · simp at h
  · rename_i src hsrc
    split at h
    · simp at h
    · rename_i dst hdst
      split at h
      · simp at h
      · simp at h
      · rename_i bytes hput
        split at h
        · simp at h
        · rename_i c hc
          simp only [Prod.mk.injEq, gopacket.SerializeResult.ok.injEq] at h
          obtain ⟨hip, hout⟩ := h
          obtain ⟨hs1, hs2⟩ := checkIPv4Address_ok _ _ hsrc
          obtain ⟨hd1, hd2⟩ := checkIPv4Address_ok _ _ hdst
          obtain ⟨hl, ht, hv⟩ := putOptions_inv _ _ _ _ hput
          refine ⟨bytes, c, hc, hout.symm, ?_, ?_, ?_, ?_, ?_, ?_, ?_⟩
          · rw [hl]
            simp [putUint16, hs2, hd2]
            omega
          · have := congrArg (List.take 4) ht
            simp only [List.take_take] at this
            rw [show min 4 20 = 4 from rfl] at this
            rw [this]
            simp [putUint16]
          · intro h1 h2 h3
            apply hv _ h3
            have hor : ∀ x y : Nat, (x % 256 ||| y % 256) < 256 := fun x y =>
              Nat.or_lt_two_pow (n := 8) (Nat.mod_lt _ (by decide)) (Nat.mod_lt _ (by decide))
            refine valid_append _ _ (valid_append _ _ (valid_append _ _ (valid_append _ _
              (valid_append _ _ (valid_append _ _ (valid_append _ _ ?_ (valid_putUint16 _))
              (valid_putUint16 _)) (valid_putUint16 _)) ?_) ?_) ?_) ?_
            · intro x hx
              simp only [List.mem_cons, List.mem_singleton, List.not_mem_nil, or_false] at hx
              rcases hx with hx | hx
              · rw [hx]; exact hor _ _
              · omega
            · intro x hx
              simp only [List.mem_cons, List.mem_singleton, List.not_mem_nil, or_false] at hx
              rcases hx with hx | hx | hx | hx <;> omega
            · rw [hs1]; exact To4_valid _ h1
            · rw [hd1]; exact To4_valid _ h2
            · intro x hx
              simp only [List.mem_replicate] at hx
              omega
          · subst hip; exact hs1
          · subst hip; exact hd1
          · subst hip; exact hs2
          · subst hip; exact hd2

theorem getUint16_putUint16_append (c : Nat) (rest : Bytes) (hc : c ≤ 65535) :
    getUint16 (putUint16 c ++ rest) = c := by
  simp only [getUint16, putUint16, List.cons_append, List.nil_append, List.getD_cons_zero,
    List.getD_cons_succ]
  omega

theorem getUint16_drop (l : Bytes) (n : Nat) :
    getUint16 (l.drop n) = l.getD n 0 * 256 + l.getD (n + 1) 0 := by
  induction l generalizing n with
  | nil => simp [getUint16]
  | cons a l ih =>
    cases n with
    | zero => simp [getUint16]
    | succ n => simp only [List.drop_succ_cons, List.getD_cons_succ, ih n]

theorem checksum_le (bytes : Bytes) (c : Nat) (h : layers.checksum bytes = some c) :
    c ≤ 65535 := by
  unfold layers.checksum at h
  split at h
  · simp at h
  · simp only [Option.some.injEq] at h
    omega

theorem checksum_eq_internetChecksum (bytes : Bytes) (c : Nat) (hv : ValidBytes bytes)
    (hlen : bytes.length ≤ 65535) (h : layers.checksum bytes = some c) :
    internetChecksum (clearChecksum 10 bytes) = c := by
  unfold layers.checksum at h
  split at h
  · simp at h
  · rename_i s hs
    simp only [Option.some.injEq] at h
    have hvz : ValidBytes ((bytes.set 10 0).set 11 0) :=
      valid_set _ _ _ (valid_set _ _ _ hv (by decide)) (by decide)
    have hsum := checksumLoop_eq _ 0 s hvz (by simp only [List.length_set]; omega) hs
    rw [clearChecksum, internetChecksum_eq _ hvz, ← h, foldCarry_eq, hsum, Nat.zero_add]

theorem header_of_take4 (l : Bytes) (a0 a1 a2 a3 : Nat) (h : l.take 4 = [a0, a1, a2, a3]) :
    l.getD 0 0 = a0 ∧ getUint16 (l.drop 2) = a2 * 256 + a3 := by
  have hl := List.take_append_drop 4 l
  rw [h] at hl
  rw [← hl]
  simp [getUint16]

theorem version_ihl_nibble (v y : Nat) (hy : y < 16) : ((v * 16) % 256 ||| y) % 16 = y := by
  have h1 : (v * 16) % 256 = 2 ^ 4 * (v % 16) := by omega
  rw [h1, ← Nat.mul_add_lt_is_or (by omega : y < 2 ^ 4)]
  omega

theorem ipv4_serialized_checksum (ip ip1 : layers.IPv4) (b out pad : Bytes)
    (h : ip.SerializeTo b fixAll = (ip1, .ok out))
    (hS : ip.getIPv4OptionSize ≤ 40) (hb : b.length ≤ 65000)
    (hsrc : ValidBytes ip.SrcIP) (hdst : ValidBytes ip.DstIP)
    (hopt : ∀ o ∈ ip.Options, ValidBytes o.OptionData) :
    IPv4ChecksumHolds (out ++ pad) ∧ icmpMessageOf (out ++ pad) = b := by
  obtain ⟨bytes, c, hc, hout, hlen, ht4, hval, -, -, -, -⟩ := IPv4_SerializeTo_inv ip b ip1 out h
  have hvb := hval hsrc hdst hopt
  have hmod := getIPv4OptionSize_mod ip
  have hc16 := checksum_le _ _ hc
  have hcopy : copyAt bytes 10 (putUint16 c) = (bytes.set 10 (c / 256 % 256)).set 11 (c % 256) := by
    rw [putUint16, copyAt_two _ _ _ _ (by omega)]
  have hhdrlen : (copyAt bytes 10 (putUint16 c)).length = 20 + ip.getIPv4OptionSize := by
    rw [length_copyAt, hlen]
  have hol : out.length = 20 + ip.getIPv4OptionSize + b.length := by
    rw [hout, List.length_append, hhdrlen]
  have ht4' : (out ++ pad).take 4 = bytes.take 4 := by
    rw [List.take_append_of_le_length (by omega), hout,
      List.take_append_of_le_length (by omega), take_copyAt _ _ _ _ (by omega)]
  rw [ht4] at ht4'
  obtain ⟨hb0, hb2⟩ := header_of_take4 (out ++ pad) _ _ _ _ ht4'
  have hihl : 4 * ((out ++ pad).getD 0 0 % 16) = 20 + ip.getIPv4OptionSize := by
    rw [hb0, version_ihl_nibble _ _ (by omega)]
    omega
  have htot : getUint16 ((out ++ pad).drop 2) = 20 + ip.getIPv4OptionSize + b.length := by
    rw [hb2]; omega
  have hhdr : ipv4HeaderOf (out ++ pad) = copyAt bytes 10 (putUint16 c) := by
    rw [ipv4HeaderOf, hihl, List.take_append_of_le_length (by omega), hout,
      List.take_left' hhdrlen]
  constructor
  · rw [IPv4ChecksumHolds, hhdr]
    have hclr : clearChecksum 10 (copyAt bytes 10 (putUint16 c)) = clearChecksum 10 bytes := by
      rw [hcopy]
      simp only [clearChecksum]
      rw [List.set_comm _ _ _ (by decide : (11 : Nat) ≠ 10), List.set_set, List.set_set]
    rw [hclr, checksum_eq_internetChecksum _ _ hvb (by omega) hc, hcopy]
    rw [getUint16_drop]
    have h10 : ((bytes.set 10 (c / 256 % 256)).set 11 (c % 256)).getD 10 0 = c / 256 % 256 := by
      rw [List.getD_eq_getElem?_getD, List.getElem?_set_ne (by decide),
        List.getElem?_set_self (by omega)]
      rfl
    have h11 : ((bytes.set 10 (c / 256 % 256)).set 11 (c % 256)).getD 11 0 = c % 256 := by
      rw [List.getD_eq_getElem?_getD, List.getElem?_set_self (by simp only [List.length_set]; omega)]
      rfl
    rw [h10, h11]
    omega
  · rw [icmpMessageOf, hihl, htot, ← hol, List.take_left' rfl, hout, List.drop_left' hhdrlen]

theorem icmp_serialized_checksum (r : layers.ICMPv4) (B : Bytes) (hv : ValidBytes B)
    (hlen : B.length ≤ 65000) :
    internetChecksum (clearChecksum 2 (icmpBytes r B)) = getUint16 ((icmpBytes r B).drop 2) := by
  have hz : clearChecksum 2 (icmpBytes r B)
      = putUint16 r.TypeCode ++ [0, 0] ++ putUint16 r.Id ++ putUint16 r.Seq ++ B := by
    simp [clearChecksum, icmpBytes, putUint16]
  have hvz : ValidBytes (putUint16 r.TypeCode ++ [0, 0] ++ putUint16 r.Id ++ putUint16 r.Seq ++ B) := by
    refine valid_append _ _ (valid_append _ _ (valid_append _ _ (valid_append _ _
      (valid_putUint16 _) ?_) (valid_putUint16 _)) (valid_putUint16 _)) hv
    intro x hx
    simp only [List.mem_cons, List.mem_singleton, List.not_mem_nil, or_false] at hx
    omega
  have hd : (icmpBytes r B).drop 2
      = putUint16 (icmpChecksumFor r B) ++ (putUint16 r.Id ++ putUint16 r.Seq ++ B) := by
    simp [icmpBytes, putUint16]
  rw [hz, hd, getUint16_putUint16_append _ _
    (by unfold icmpChecksumFor layers.tcpipChecksum; omega)]
  exact (tcpipChecksum_eq _ hvz (by simp [putUint16]; omega)).symm

theorem ICMPv4_SerializeTo_fixAll (r : layers.ICMPv4) (B : Bytes) :
    r.SerializeTo B fixAll =
      ({ r with Checksum := icmpChecksumFor r B },
       .ok (icmpBytes r B)) := by
  simp [layers.ICMPv4.SerializeTo, fixAll, icmpBytes, icmpChecksumFor]

theorem SerializeLayers_icmp_payload (r : layers.ICMPv4) (B : Bytes) :
    gopacket.SerializeLayers fixAll [.icmpv4 r, .payload B] =
      ([.icmpv4 { r with Checksum := icmpChecksumFor r B },
        .payload B], .ok (icmpBytes r B)) := by
  have h1 : gopacket.SerializeLayers fixAll [.payload B] = ([.payload B], .ok B) := by
    rw [SerializeLayers_single]
    simp only [gopacket.SerializableLayer.SerializeTo, gopacket.Payload.SerializeTo,
      List.append_nil, Prod.map, id]
  rw [SerializeLayers_cons_ok _ _ _ _ _ h1]
  simp only [gopacket.SerializableLayer.SerializeTo, ICMPv4_SerializeTo_fixAll, Prod.map, id]

theorem SerializeLayers_ip_icmp (ip : layers.IPv4) (r : layers.ICMPv4) (B : Bytes) :
    gopacket.SerializeLayers fixAll [.ipv4 ip, .icmpv4 r, .payload B] =
      (.ipv4 (ip.SerializeTo (icmpBytes r B) fixAll).1 ::
        [.icmpv4 { r with Checksum := icmpChecksumFor r B },
         .payload B],
       (ip.SerializeTo (icmpBytes r B) fixAll).2) := by
  rw [SerializeLayers_cons_ok _ _ _ _ _ (SerializeLayers_icmp_payload r B)]
  simp only [gopacket.SerializableLayer.SerializeTo, Prod.map, id]

/-! ## Every frame an ICMP handler writes carries valid checksums -/

theorem Layer_some_mem (p : gopacket.Packet) (t : gopacket.LayerType) (l : gopacket.Layer)
    (h : p.Layer t = some l) : l ∈ p.layers ∧ l.LayerType = t := by
  unfold gopacket.Packet.Layer at h
  refine ⟨List.mem_of_find?_eq_some h, ?_⟩
  have := List.find?_some h
  simpa using this

theorem Layer_IPv4_cases (p : gopacket.Packet) :
    p.Layer .IPv4 = none ∨ ∃ ip, p.Layer .IPv4 = some (.ipv4 ip) ∧ .ipv4 ip ∈ p.layers := by
  cases h : p.Layer .IPv4 with
  | none => exact Or.inl rfl
  | some l =>
    obtain ⟨hm, ht⟩ := Layer_some_mem p _ l h
    cases l <;> simp [gopacket.Layer.LayerType] at ht
    exact Or.inr ⟨_, rfl, hm⟩

theorem Layer_Ethernet_cases (p : gopacket.Packet) :
    p.Layer .Ethernet = none ∨ ∃ eth, p.Layer .Ethernet = some (.ethernet eth) := by
  cases h : p.Layer .Ethernet with
  | none => exact Or.inl rfl
  | some l =>
    obtain ⟨-, ht⟩ := Layer_some_mem p _ l h
    cases l <;> simp [gopacket.Layer.LayerType] at ht
    exact Or.inr ⟨_, rfl⟩

theorem Layer_ICMPv4_is (p : gopacket.Packet) (l : gopacket.Layer)
    (h : p.Layer .ICMPv4 = some l) : ∃ icmp, l = .icmpv4 icmp ∧ .icmpv4 icmp ∈ p.layers := by
  obtain ⟨hm, ht⟩ := Layer_some_mem p _ l h
  cases l <;> simp [gopacket.Layer.LayerType] at ht
  exact ⟨_, rfl, hm⟩

theorem ip_icmp_reply_checksums (n : Nat) (hn : n ≤ 1500) (ip ip1 : layers.IPv4)
    (icmp : layers.ICMPv4) (out pad : Bytes)
    (hok : LayerOK n (.ipv4 ip)) (hokI : LayerOK n (.icmpv4 icmp))
    (h : ({ ip with DstIP := ip.SrcIP, SrcIP := ip.DstIP } : layers.IPv4).SerializeTo
          (icmpBytes (echoReplyFor icmp) icmp.Payload) fixAll = (ip1, .ok out)) :
    IPv4ChecksumHolds (out ++ pad) ∧ ICMPv4ChecksumHolds (out ++ pad) := by
  obtain ⟨hs, hd, ho, hsz, -, -⟩ := hok
  obtain ⟨hpv, hpl⟩ := hokI
  have hlen : (icmpBytes (echoReplyFor icmp) icmp.Payload).length ≤ 65000 := by
    simp [icmpBytes, putUint16]; omega
  obtain ⟨h1, h2⟩ := ipv4_serialized_checksum _ ip1 _ out pad h hsz hlen hd hs ho
  refine ⟨h1, ?_⟩
  rw [ICMPv4ChecksumHolds, h2]
  exact icmp_serialized_checksum _ _ hpv (by omega)

theorem tun_handler_checksums (n : Nat) (hn : n ≤ 1500) (packet p : gopacket.Packet)
    (icmpLayer : gopacket.Layer) (e : Effects) (reply : Bytes)
    (hok : ∀ l ∈ packet.layers, LayerOK n l)
    (hl : packet.Layer .ICMPv4 = some icmpLayer)
    (h : tun.handleICMPRequest packet icmpLayer = .ok (p, e)) (hr : reply ∈ e.writes) :
    IPv4ChecksumHolds reply ∧ ICMPv4ChecksumHolds reply := by
  obtain ⟨icmp, rfl, hmem⟩ := Layer_ICMPv4_is packet icmpLayer hl
  by_cases hty : icmp.Type = layers.ICMPv4TypeEchoRequest
  · rcases Layer_IPv4_cases packet with hnone | ⟨ip, hip, hipm⟩
    · simp [tun.handleICMPRequest, hty, tun.icmpReplyLayers, hnone] at h
    · rw [tun_handle_echo packet icmp ip hty hip, serializeAndWrite, SerializeLayers_ip_icmp] at h
      simp only at h
      generalize hser : ({ ip with DstIP := ip.SrcIP, SrcIP := ip.DstIP } : layers.IPv4).SerializeTo
          (icmpBytes (echoReplyFor icmp) icmp.Payload) fixAll = res at h
      obtain ⟨ip1, r⟩ := res
      cases r with
      | ok out =>
        simp only [emit, Except.ok.injEq, Prod.mk.injEq] at h
        obtain ⟨-, he⟩ := h
        subst he
        simp only [List.mem_singleton] at hr
        subst hr
        have := ip_icmp_reply_checksums n hn ip ip1 icmp reply [] (hok _ hipm) (hok _ hmem) hser
        simpa using this
      | err msg =>
        simp only [emit, Except.ok.injEq, Prod.mk.injEq] at h
        obtain ⟨-, he⟩ := h
        subst he
        simp at hr
      | panic msg => simp [emit] at h
  · rw [tun_handle_other packet icmp hty] at h
    simp only [Except.ok.injEq, Prod.mk.injEq] at h
    obtain ⟨-, he⟩ := h
    subst he
    simp [Effects.none] at hr

theorem SerializeLayers_cons_result (opts : gopacket.SerializeOptions)
    (l : gopacket.SerializableLayer) (rest : List gopacket.SerializableLayer) :
    (gopacket.SerializeLayers opts (l :: rest)).2 =
      match (gopacket.SerializeLayers opts rest).2 with
      | .ok b => (l.SerializeTo b opts).2
      | .err msg => .err msg
      | .panic msg => .panic msg := by
  rw [gopacket.SerializeLayers]
  generalize gopacket.SerializeLayers opts rest = res
  obtain ⟨rest1, r⟩ := res
  cases r <;> simp [Prod.map]

theorem drop14_padTo60 (d s t b : Bytes) (hd : d.length = 6) (hs : s.length = 6)
    (ht : t.length = 2) : ∃ pad, (layers.padTo60 (d ++ s ++ t ++ b)).drop 14 = b ++ pad := by
  refine ⟨List.replicate (60 - (d ++ s ++ t ++ b).length) 0, ?_⟩
  rw [layers.padTo60, List.append_assoc (d ++ s ++ t), List.drop_left']
  simp [hd, hs, ht]

theorem Ethernet_SerializeTo_inv (eth eth1 : layers.Ethernet) (b out : Bytes)
    (opts : gopacket.SerializeOptions) (h : eth.SerializeTo b opts = (eth1, .ok out)) :
    ∃ pad, out.drop 14 = b ++ pad := by
  simp only [layers.Ethernet.SerializeTo] at h
  split_ifs at h <;>
    simp only [Prod.mk.injEq, gopacket.SerializeResult.ok.injEq, reduceCtorEq, and_false] at h
  all_goals
    obtain ⟨-, h⟩ := h
    subst h
    exact drop14_padTo60 _ _ _ _ (by omega) (by omega) rfl

theorem tap_handler_checksums (n : Nat) (hn : n ≤ 1500) (packet p : gopacket.Packet)
    (icmpLayer : gopacket.Layer) (e : Effects) (reply : Bytes)
    (hok : ∀ l ∈ packet.layers, LayerOK n l)
    (hl : packet.Layer .ICMPv4 = some icmpLayer)
    (h : tap.handleICMPRequest packet icmpLayer = .ok (p, e)) (hr : reply ∈ e.writes) :
    IPv4ChecksumHolds (reply.drop 14) ∧ ICMPv4ChecksumHolds (reply.drop 14) := by
  obtain ⟨icmp, rfl, hmem⟩ := Layer_ICMPv4_is packet icmpLayer hl
  by_cases hty : icmp.Type = layers.ICMPv4TypeEchoRequest
  · rcases Layer_IPv4_cases packet with hnone | ⟨ip, hip, hipm⟩
    · simp [tap.handleICMPRequest, hty, tap.icmpReplyLayers, hnone] at h
    · rcases Layer_Ethernet_cases packet with hnone | ⟨eth, heth⟩
      · have h2 : (packet.setLayer .IPv4
            (.ipv4 { ip with DstIP := ip.SrcIP, SrcIP := ip.DstIP })).Layer .Ethernet = none := by
          rw [Layer_setIPv4_ne packet _ .Ethernet (by decide)]; exact hnone
        simp [tap.handleICMPRequest, hty, tap.icmpReplyLayers, hip, h2] at h
      · rw [tap_handle_echo packet icmp ip eth hty hip heth, serializeAndWrite,
          SerializeLayers_cons_result, SerializeLayers_ip_icmp] at h
        simp only at h
        generalize hser : ({ ip with DstIP := ip.SrcIP, SrcIP := ip.DstIP } :
            layers.IPv4).SerializeTo (icmpBytes (echoReplyFor icmp) icmp.Payload) fixAll
            = res at h
        obtain ⟨ip1, r⟩ := res
        cases r with
        | ok out =>
          simp only [gopacket.SerializableLayer.SerializeTo, Prod.map, id] at h
          generalize hse : ({ eth with DstMAC := eth.SrcMAC, SrcMAC := eth.DstMAC } :
            layers.Ethernet).SerializeTo out fixAll = rese at h
          obtain ⟨eth1, re⟩ := rese
          cases re with
          | ok frame =>
            simp only [emit, Except.ok.injEq, Prod.mk.injEq] at h
            obtain ⟨-, he⟩ := h
            subst he
            simp only [List.mem_singleton] at hr
            subst hr
            obtain ⟨pad, hpad⟩ := Ethernet_SerializeTo_inv _ _ _ _ _ hse
            rw [hpad]
            exact ip_icmp_reply_checksums n hn ip ip1 icmp out pad (hok _ hipm) (hok _ hmem) hser
          | err msg =>
            simp only [emit, Except.ok.injEq, Prod.mk.injEq] at h
            obtain ⟨-, he⟩ := h
            subst he
            simp at hr
          | panic msg => simp [emit] at h
        | err msg =>
          simp only [emit, Except.ok.injEq, Prod.mk.injEq] at h
          obtain ⟨-, he⟩ := h
          subst he
          simp at hr
        | panic msg => simp [emit] at h
  · rw [tap_handle_other packet icmp hty] at h
    simp only [Except.ok.injEq, Prod.mk.injEq] at h
    obtain ⟨-, he⟩ := h
    subst he
    simp [Effects.none] at hr

/-! ## What the decoder guarantees about its layers -/

theorem valid_take (l : Bytes) (k : Nat) (h : ValidBytes l) : ValidBytes (l.take k) :=
  fun x hx => h x (List.mem_of_mem_take hx)

theorem valid_drop (l : Bytes) (k : Nat) (h : ValidBytes l) : ValidBytes (l.drop k) :=
  fun x hx => h x (List.mem_of_mem_drop hx)

theorem optionsSize_append (acc : List layers.IPv4Option) (o : layers.IPv4Option) :
    optionsSize (acc ++ [o]) = optionsSize acc + optionSizeOf o := by
  simp [optionsSize]

theorem options_valid_snoc (acc : List layers.IPv4Option) (o : layers.IPv4Option)
    (ha : ∀ x ∈ acc, ValidBytes x.OptionData) (ho : ValidBytes o.OptionData) :
    ∀ x ∈ acc ++ [o], ValidBytes x.OptionData := by
  intro x hx
  rcases List.mem_append.mp hx with h | h
  · exact ha x h
  · simp only [List.mem_singleton] at h
    subst h
    exact ho

theorem valid_nil : ValidBytes ([] : Bytes) := fun x hx => by simp at hx

theorem decodeOptions_inv (fuel : Nat) :
    ∀ (data : Bytes) (acc : List layers.IPv4Option), ValidBytes data →
      (∀ o ∈ acc, ValidBytes o.OptionData) →
      (∀ o ∈ (layers.decodeOptions fuel data acc).1, ValidBytes o.OptionData) ∧
      optionsSize (layers.decodeOptions fuel data acc).1 ≤ optionsSize acc + data.length := by
  induction fuel with
  | zero =>
    intro data acc _ ha
    simp only [layers.decodeOptions]
    exact ⟨ha, Nat.le_add_right _ _⟩
  | succ fuel ih =>
    intro data acc hv ha
    cases data with
    | nil =>
      simp only [layers.decodeOptions]
      exact ⟨ha, Nat.le_add_right _ _⟩
    | cons t rest =>
      have hrest : ValidBytes rest := fun x hx => hv x (by simp [hx])
      simp only [layers.decodeOptions]
      split
      · refine ⟨options_valid_snoc acc ⟨0, 1, []⟩ ha valid_nil, ?_⟩
        rw [optionsSize_append]
        simp [optionSizeOf]
      · split
        · obtain ⟨h1, h2⟩ := ih rest _ hrest (options_valid_snoc acc ⟨1, 1, []⟩ ha valid_nil)
          refine ⟨h1, ?_⟩
          rw [optionsSize_append] at h2
          have hsz : optionSizeOf { OptionType := 1, OptionLength := 1, OptionData := [] } = 1 :=
            rfl
          rw [hsz] at h2
          simp only [List.length_cons]
          omega
        · rename_i ht0 ht1
          split
          · exact ⟨ha, Nat.le_add_right _ _⟩
          · split
            · exact ⟨ha, Nat.le_add_right _ _⟩
            · split
              · exact ⟨ha, Nat.le_add_right _ _⟩
              · rename_i hlen2 hlen hle2
                obtain ⟨h1, h2⟩ := ih ((t :: rest).drop ((t :: rest).getD 1 0)) _
                  (valid_drop _ _ hv)
                  (options_valid_snoc acc ⟨t, _, _⟩ ha (valid_drop _ 2 (valid_take _ _ hv)))
                refine ⟨h1, ?_⟩
                rw [optionsSize_append] at h2
                simp only [optionSizeOf, ht0, ht1, if_false, List.length_drop] at h2
                omega

theorem getD_valid (l : Bytes) (i : Nat) (h : ValidBytes l) : l.getD i 0 < 256 := by
  rw [List.getD_eq_getElem?_getD]
  cases hi : l[i]? with
  | none => simp
  | some x =>
    simp only [Option.getD_some]
    exact h x (List.getElem?_mem hi)

theorem options_wf_snoc (acc : List layers.IPv4Option) (o : layers.IPv4Option)
    (ha : ∀ x ∈ acc, OptionWF x) (ho : OptionWF o) : ∀ x ∈ acc ++ [o], OptionWF x := by
  intro x hx
  rcases List.mem_append.mp hx with h | h
  · exact ha x h
  · simp only [List.mem_singleton] at h
    subst h
    exact ho

theorem decodeOptions_wf (fuel : Nat) :
    ∀ (data : Bytes) (acc : List layers.IPv4Option), ValidBytes data →
      (∀ o ∈ acc, OptionWF o) → ∀ o ∈ (layers.decodeOptions fuel data acc).1, OptionWF o := by
  induction fuel with
  | zero =>
    intro data acc _ ha
    simp only [layers.decodeOptions]
    exact ha
  | succ fuel ih =>
    intro data acc hv ha
    cases data with
    | nil =>
      simp only [layers.decodeOptions]
      exact ha
    | cons t rest =>
      have hrest : ValidBytes rest := fun x hx => hv x (by simp [hx])
      simp only [layers.decodeOptions]
      split
      · exact options_wf_snoc acc ⟨0, 1, []⟩ ha (Or.inl rfl)
      · split
        · exact ih rest _ hrest (options_wf_snoc acc ⟨1, 1, []⟩ ha (Or.inr (Or.inl rfl)))
        · split
          · exact ha
          · split
            · exact ha
            · split
              · exact ha
              · rename_i hlen2 hlen hle2
                refine ih _ _ (valid_drop _ _ hv) (options_wf_snoc acc ⟨t, _, _⟩ ha ?_)
                right; right
                have hb := getD_valid (t :: rest) 1 hv
                show 2 ≤ (t :: rest).getD 1 0 ∧ (t :: rest).getD 1 0 < 256 ∧
                  (((t :: rest).take ((t :: rest).getD 1 0)).drop 2).length + 2
                    ≤ (t :: rest).getD 1 0
                refine ⟨by omega, hb, ?_⟩
                simp only [List.length_drop, List.length_take]
                omega

theorem foldl_optionSize (opts : List layers.IPv4Option) :
    ∀ a : Nat, a + optionsSize opts ≤ 255 →
      opts.foldl (fun acc opt =>
        if opt.OptionType = 0 then (acc + 1) % 256
        else if opt.OptionType = 1 then (acc + 1) % 256
        else (acc + opt.OptionLength) % 256) a = a + optionsSize opts := by
  induction opts with
  | nil => intro a _; simp [optionsSize]
  | cons o rest ih =>
    intro a h
    have hs : optionsSize (o :: rest) = optionSizeOf o + optionsSize rest := by
      simp [optionsSize]
    rw [hs] at h ⊢
    simp only [List.foldl_cons]
    by_cases h0 : o.OptionType = 0
    · have hsz : optionSizeOf o = 1 := by simp only [optionSizeOf, h0, if_true]
      rw [hsz] at h ⊢
      simp only [h0, if_true]
      rw [Nat.mod_eq_of_lt (by omega), ih (a + 1) (by omega)]
      omega
    · by_cases h1 : o.OptionType = 1
      · have hsz : optionSizeOf o = 1 := by unfold optionSizeOf; rw [if_neg h0, if_pos h1]
        rw [hsz] at h ⊢
        rw [if_neg h0, if_pos h1]
        rw [Nat.mod_eq_of_lt (by omega), ih (a + 1) (by omega)]
        omega
      · have hsz : optionSizeOf o = o.OptionLength := by
          unfold optionSizeOf; rw [if_neg h0, if_neg h1]
        rw [hsz] at h ⊢
        rw [if_neg h0, if_neg h1]
        rw [Nat.mod_eq_of_lt (by omega), ih (a + o.OptionLength) (by omega)]
        omega

theorem getIPv4OptionSize_le (ip : layers.IPv4) (h : optionsSize ip.Options ≤ 40) :
    ip.getIPv4OptionSize ≤ 40 := by
  unfold layers.IPv4.getIPv4OptionSize
  simp only
  rw [foldl_optionSize ip.Options 0 (by omega), Nat.zero_add]
  split <;> omega

theorem IPv4_Decode_inv (n : Nat) (data : Bytes) (hv : ValidBytes data)
    (hlen : data.length ≤ n) :
    LayerOK n (.ipv4 (layers.IPv4.DecodeFromBytes data).1) ∧
    ∀ payload, (layers.IPv4.DecodeFromBytes data).2 = some payload →
      ValidBytes payload ∧ payload.length ≤ n := by
  have hsrc : ValidBytes ((data.drop 12).take 4) := valid_take _ _ (valid_drop _ _ hv)
  have hdst : ValidBytes ((data.drop 16).take 4) := valid_take _ _ (valid_drop _ _ hv)
  have hno : ∀ o ∈ ([] : List layers.IPv4Option), ValidBytes o.OptionData :=
    fun o ho => by simp at ho
  have hnw : ∀ o ∈ ([] : List layers.IPv4Option), OptionWF o := fun o ho => by simp at ho
  unfold layers.IPv4.DecodeFromBytes
  split
  · exact ⟨⟨valid_nil, valid_nil, hno, getIPv4OptionSize_le _ (by simp [optionsSize]), hnw,
      by simp [optionsSize]⟩, fun p hp => by simp at hp⟩
  · simp only
    generalize (if getUint16 (data.drop 2) = 0 then data.length % 65536
      else getUint16 (data.drop 2)) = L
    split_ifs
    all_goals first
      | exact ⟨⟨hsrc, hdst, hno, getIPv4OptionSize_le _ (by simp [optionsSize]), hnw,
          by simp [optionsSize]⟩, fun p hp => by simp at hp⟩
      | skip
    all_goals
      obtain ⟨h1, h2⟩ := decodeOptions_inv
        (((data.take L).take (data.getD 0 0 % 16 * 4)).drop 20).length
        (((data.take L).take (data.getD 0 0 % 16 * 4)).drop 20) []
        (valid_drop _ _ (valid_take _ _ (valid_take _ _ hv))) hno
      have hsz : optionsSize (layers.decodeOptions
          (((data.take L).take (data.getD 0 0 % 16 * 4)).drop 20).length
          (((data.take L).take (data.getD 0 0 % 16 * 4)).drop 20) []).1 ≤ 40 := by
        refine Nat.le_trans h2 ?_
        simp only [optionsSize, List.map_nil, List.sum_nil, Nat.zero_add, List.length_drop,
          List.length_take]
        omega
      have hwf := decodeOptions_wf
        (((data.take L).take (data.getD 0 0 % 16 * 4)).drop 20).length
        (((data.take L).take (data.getD 0 0 % 16 * 4)).drop 20) []
        (valid_drop _ _ (valid_take _ _ (valid_take _ _ hv))) hnw
      refine ⟨⟨hsrc, hdst, h1, getIPv4OptionSize_le _ hsz, hwf, hsz⟩, ?_⟩
      intro p hp
      first
        | (simp only [Option.some.injEq] at hp
           subst hp
           refine ⟨valid_drop _ _ (valid_take _ _ hv), ?_⟩
           simp only [List.length_drop, List.length_take]
           omega)
        | simp at hp

theorem Ethernet_Decode_inv (data : Bytes) (eth : layers.Ethernet) (payload : Bytes)
    (hv : ValidBytes data) (h : layers.Ethernet.DecodeFromBytes data = some (eth, payload)) :
    ValidBytes payload ∧ payload.length ≤ data.length := by
  simp only [layers.Ethernet.DecodeFromBytes] at h
  split_ifs at h <;> simp only [Option.some.injEq, Prod.mk.injEq, reduceCtorEq] at h
  all_goals
    obtain ⟨-, h⟩ := h
    subst h
    first
      | exact ⟨valid_take _ _ (valid_drop _ _ hv), by
          simp only [List.length_take, List.length_drop]; omega⟩
      | exact ⟨valid_drop _ _ hv, by simp only [List.length_drop]; omega⟩

theorem ARP_Decode_inv (data : Bytes) (arp : layers.ARP) (payload : Bytes)
    (hv : ValidBytes data) (h : layers.ARP.DecodeFromBytes data = some (arp, payload)) :
    ValidBytes payload ∧ payload.length ≤ data.length := by
  simp only [layers.ARP.DecodeFromBytes] at h
  split_ifs at h
  split at h
  · simp only [Option.some.injEq, Prod.mk.injEq] at h
    obtain ⟨-, h⟩ := h
    subst h
    exact ⟨valid_drop _ _ hv, by simp only [List.length_drop]; omega⟩
  · simp at h

theorem IPv6_Decode_inv (data : Bytes) (payload : Bytes) (hv : ValidBytes data)
    (h : (layers.IPv6.DecodeFromBytes data).2 = some payload) :
    ValidBytes payload ∧ payload.length ≤ data.length := by
  simp only [layers.IPv6.DecodeFromBytes] at h
  split_ifs at h
  simp only [Option.some.injEq] at h
  subst h
  exact ⟨valid_take _ _ (valid_drop _ _ hv), by
    simp only [List.length_take, List.length_drop]; omega⟩

theorem ICMPv4_Decode_inv (n : Nat) (data : Bytes) (icmp : layers.ICMPv4)
    (hv : ValidBytes data) (hlen : data.length ≤ n)
    (h : layers.ICMPv4.DecodeFromBytes data = some icmp) :
    ValidBytes icmp.Payload ∧ icmp.Payload.length ≤ n := by
  unfold layers.ICMPv4.DecodeFromBytes at h
  split_ifs at h
  simp only [Option.some.injEq] at h
  subst h
  exact ⟨valid_drop _ _ hv, by simp only [List.length_drop]; omega⟩

theorem decodeFrom_inv (ext : gopacket.Unmodelled) (n : Nat) (fuel : Nat) :
    ∀ (d : gopacket.Decoder) (data : Bytes), ValidBytes data → data.length ≤ n →
      ∀ l ∈ gopacket.decodeFrom ext fuel d data, LayerOK n l := by
  induction fuel with
  | zero => intro d data _ _ l hl; simp [gopacket.decodeFrom] at hl
  | succ fuel ih =>
    intro d data hv hlen l hl
    have tail : ∀ (d1 : gopacket.Decoder) (p : Bytes), ValidBytes p → p.length ≤ data.length →
        l ∈ (if p.isEmpty then [] else gopacket.decodeFrom ext fuel d1 p) → LayerOK n l := by
      intro d1 p hp hpl hm
      split at hm
      · simp at hm
      · exact ih d1 p hp (by omega) l hm
    cases d with
    | payload =>
      simp only [gopacket.decodeFrom, List.mem_singleton] at hl
      subst hl; trivial
    | fragment =>
      simp only [gopacket.decodeFrom, List.mem_singleton] at hl
      subst hl; trivial
    | ethernet =>
      simp only [gopacket.decodeFrom] at hl
      split at hl
      · simp only [List.mem_singleton] at hl
        subst hl; trivial
      · rename_i eth payload hdec
        obtain ⟨h1, h2⟩ := Ethernet_Decode_inv _ _ _ hv hdec
        rcases List.mem_cons.mp hl with h | h
        · subst h; trivial
        · exact tail _ _ h1 h2 h
    | arp =>
      simp only [gopacket.decodeFrom] at hl
      split at hl
      · simp only [List.mem_singleton] at hl
        subst hl; trivial
      · rename_i arp payload hdec
        obtain ⟨h1, h2⟩ := ARP_Decode_inv _ _ _ hv hdec
        rcases List.mem_cons.mp hl with h | h
        · subst h; trivial
        · exact tail _ _ h1 h2 h
    | ipv4 =>
      simp only [gopacket.decodeFrom] at hl
      obtain ⟨hok, hp⟩ := IPv4_Decode_inv n data hv hlen
      split at hl
      · rename_i ip hdec
        rw [hdec] at hok
        simp only [List.mem_cons, List.mem_singleton, List.not_mem_nil, or_false] at hl
        rcases hl with h | h
        · subst h; exact hok
        · subst h; trivial
      · rename_i ip payload hdec
        rw [hdec] at hok hp
        obtain ⟨h1, h2⟩ := hp payload rfl
        rcases List.mem_cons.mp hl with h | h
        · subst h; exact hok
        · split at h
          · simp at h
          · exact ih _ payload h1 h2 l h
    | ipv6 =>
      simp only [gopacket.decodeFrom] at hl
      split at hl
      · rcases List.mem_cons.mp hl with h | h
        · subst h; trivial
        · exact ih _ _ (valid_drop _ _ hv) (by simp only [List.length_drop]; omega) l h
      · split at hl
        · simp only [List.mem_cons, List.mem_singleton, List.not_mem_nil, or_false] at hl
          rcases hl with h | h
          · subst h; trivial
          · subst h; trivial
        · rename_i ip payload hdec
          have hp : (layers.IPv6.DecodeFromBytes data).2 = some payload := by rw [hdec]
          obtain ⟨h1, h2⟩ := IPv6_Decode_inv _ _ hv hp
          rcases List.mem_cons.mp hl with h | h
          · subst h; trivial
          · exact tail _ _ h1 h2 h
    | icmpv4 =>
      simp only [gopacket.decodeFrom] at hl
      split at hl
      · simp only [List.mem_singleton] at hl
        subst hl; trivial
      · rename_i icmp hdec
        obtain ⟨h1, h2⟩ := ICMPv4_Decode_inv data.length _ _ hv (Nat.le_refl _) hdec
        rcases List.mem_cons.mp hl with h | h
        · subst h; exact ⟨h1, by omega⟩
        · exact tail _ _ h1 h2 h
    | unmodelled k =>
      simp only [gopacket.decodeFrom] at hl
      split at hl
      · simp only [List.mem_singleton] at hl
        subst hl; trivial
      · rename_i next skip len hdec
        rcases List.mem_cons.mp hl with h | h
        · subst h; trivial
        · exact tail _ _ (valid_take _ _ (valid_drop _ _ hv)) (by
            simp only [List.length_take, List.length_drop]; omega) h

theorem NewPacket_inv (ext : gopacket.Unmodelled) (frame : Bytes) (first : gopacket.Decoder)
    (hv : ValidBytes frame) (hlen : frame.length ≤ 1500) :
    ∀ l ∈ (gopacket.NewPacket ext frame first).layers, LayerOK 1500 l :=
  decodeFrom_inv ext 1500 _ first frame hv hlen

theorem valid_examplePingFrame : ValidBytes examplePingFrame := by
  unfold ValidBytes examplePingFrame; decide

theorem valid_examplePingFrameTun : ValidBytes examplePingFrameTun :=
  valid_drop _ _ valid_examplePingFrame

theorem IPv4_SerializeTo_ignores_checksum (ip : layers.IPv4) (c : Nat) (b : Bytes) :
    (({ ip with Checksum := c } : layers.IPv4).SerializeTo b fixAll).2
      = (ip.SerializeTo b fixAll).2 := by
  have hS : ({ ip with Checksum := c } : layers.IPv4).getIPv4OptionSize
      = ip.getIPv4OptionSize := rfl
  unfold layers.IPv4.SerializeTo
  simp only [fixAll, if_true, hS]
  have hF : ∀ x y : Nat, ({ ip with IHL := x, Length := y, Checksum := c } :
      layers.IPv4).flagsfrags = ({ ip with IHL := x, Length := y } : layers.IPv4).flagsfrags :=
    fun _ _ => rfl
  simp only [hF]
  cases layers.checkIPv4Address ip.SrcIP with
  | error e => rfl
  | ok src =>
    simp only
    cases layers.checkIPv4Address ip.DstIP with
    | error e => rfl
    | ok dst =>
      simp only
      generalize layers.putOptions ip.Options 20 _ = r
      cases r with
      | ok bytes =>
        simp only
        cases layers.checksum bytes <;> rfl
      | err msg => rfl
      | panic msg => rfl

/-- C5. Checksum validity: for every frame of at most 1500 bytes read from the
interface, every frame an ICMP handler writes for it (in either variant) carries an
IPv4 header checksum equal to the standard one's-complement checksum of its IPv4
header with the checksum field zeroed, and an ICMPv4 checksum equal to the standard
checksum of its ICMPv4 message (type, code, rest of header, payload) with the
checksum field zeroed; the checksum fields of the request play no part in what is
serialized. -/
theorem icmp_reply_checksums_valid (ext : gopacket.Unmodelled) (frame : Bytes)
    (hv : ValidBytes frame) (hlen : frame.length ≤ 1500) :
    (∀ icmpLayer p e reply,
      (gopacket.NewPacket ext frame .ipv4).Layer .ICMPv4 = some icmpLayer →
      tun.handleICMPRequest (gopacket.NewPacket ext frame .ipv4) icmpLayer = .ok (p, e) →
      reply ∈ e.writes → IPv4ChecksumHolds reply ∧ ICMPv4ChecksumHolds reply) ∧
    (∀ icmpLayer p e reply,
      (gopacket.NewPacket ext frame .ethernet).Layer .ICMPv4 = some icmpLayer →
      tap.handleICMPRequest (gopacket.NewPacket ext frame .ethernet) icmpLayer = .ok (p, e) →
      reply ∈ e.writes →
      IPv4ChecksumHolds (reply.drop 14) ∧ ICMPv4ChecksumHolds (reply.drop 14)) ∧
    (∀ (ip : layers.IPv4) (icmp : layers.ICMPv4) (c1 c2 : Nat),
      (gopacket.SerializeLayers fixAll
        [.ipv4 { ip with Checksum := c1 }, .icmpv4 (echoReplyFor { icmp with Checksum := c2 }),
         .payload icmp.Payload]).2
      = (gopacket.SerializeLayers fixAll
        [.ipv4 ip, .icmpv4 (echoReplyFor icmp), .payload icmp.Payload]).2) := by
  refine ⟨?_, ?_, ?_⟩
  · intro icmpLayer p e reply hl h hr
    exact tun_handler_checksums 1500 (Nat.le_refl _) _ p icmpLayer e reply
      (NewPacket_inv ext frame .ipv4 hv hlen) hl h hr
  · intro icmpLayer p e reply hl h hr
    exact tap_handler_checksums 1500 (Nat.le_refl _) _ p icmpLayer e reply
      (NewPacket_inv ext frame .ethernet hv hlen) hl h hr
  · intro ip icmp c1 c2
    rw [SerializeLayers_ip_icmp, SerializeLayers_ip_icmp]
    exact IPv4_SerializeTo_ignores_checksum ip c1 _

/-- Witness for C5: the ping of end-to-end scenario 2. The TUN handler writes
`examplePingReplyTun` and the TAP handler writes `examplePingReply`; both carry valid
checksums (0x14a4 in the IPv4 header, 0x212d in the ICMPv4 message, where the
request carried 0x192d). -/
theorem icmp_reply_checksums_valid_witness :
    (IPv4ChecksumHolds examplePingReplyTun ∧ ICMPv4ChecksumHolds examplePingReplyTun) ∧
    (IPv4ChecksumHolds (examplePingReply.drop 14) ∧
      ICMPv4ChecksumHolds (examplePingReply.drop 14)) :=
  ⟨(icmp_reply_checksums_valid noExt examplePingFrameTun valid_examplePingFrameTun
      (by decide)).1 (.icmpv4 examplePingICMP) _ _ examplePingReplyTun rfl rfl
      (List.mem_singleton.mpr rfl),
   (icmp_reply_checksums_valid noExt examplePingFrame valid_examplePingFrame
      (by decide)).2.1 (.icmpv4 examplePingICMP) _ _ examplePingReply rfl rfl
      (List.mem_singleton.mpr rfl)⟩

/-! ## At most one of the two branches of the TAP loop fires -/

theorem firstARP_cons (l : gopacket.Layer) (st : List gopacket.Layer)
    (h : l.LayerType ≠ .ARP) : firstARP (l :: st) = firstARP st := by
  simp [firstARP, List.find?, h]

theorem firstICMPv4_cons (l : gopacket.Layer) (st : List gopacket.Layer)
    (h : l.LayerType ≠ .ICMPv4) : firstICMPv4 (l :: st) = firstICMPv4 st := by
  simp [firstICMPv4, List.find?, h]

theorem decodeFrom_payload (ext : gopacket.Unmodelled) (fuel : Nat) (data : Bytes) :
    firstARP (gopacket.decodeFrom ext fuel .payload data) = none ∧
    firstICMPv4 (gopacket.decodeFrom ext fuel .payload data) = none := by
  cases fuel with
  | zero => exact ⟨rfl, rfl⟩
  | succ n => exact ⟨rfl, rfl⟩

theorem decodeFrom_exclusive (ext : gopacket.Unmodelled) (fuel : Nat) :
    ∀ (d : gopacket.Decoder) (data : Bytes),
      firstARP (gopacket.decodeFrom ext fuel d data) = none ∨
      firstICMPv4 (gopacket.decodeFrom ext fuel d data) = none := by
  induction fuel with
  | zero => intro d data; exact Or.inl rfl
  | succ fuel ih =>
    intro d data
    have tail : ∀ (l : gopacket.Layer) (d1 : gopacket.Decoder) (p : Bytes),
        l.LayerType ≠ .ARP → l.LayerType ≠ .ICMPv4 →
        (firstARP (l :: (if p.isEmpty then [] else gopacket.decodeFrom ext fuel d1 p)) = none ∨
         firstICMPv4 (l :: (if p.isEmpty then [] else gopacket.decodeFrom ext fuel d1 p)) = none)
        := by
      intro l d1 p h1 h2
      rw [firstARP_cons _ _ h1, firstICMPv4_cons _ _ h2]
      split
      · exact Or.inl rfl
      · exact ih d1 p
    cases d with
    | payload => exact Or.inl rfl
    | fragment => exact Or.inl rfl
    | ethernet =>
      simp only [gopacket.decodeFrom]
      split
      · exact Or.inl rfl
      · exact tail _ _ _ (by simp [gopacket.Layer.LayerType]) (by simp [gopacket.Layer.LayerType])
    | arp =>
      simp only [gopacket.decodeFrom]
      split
      · exact Or.inl rfl
      · right
        rw [firstICMPv4_cons _ _ (by simp [gopacket.Layer.LayerType])]
        split
        · rfl
        · exact (decodeFrom_payload ext fuel _).2
    | ipv4 =>
      simp only [gopacket.decodeFrom]
      split
      · exact Or.inl rfl
      · exact tail _ _ _ (by simp [gopacket.Layer.LayerType]) (by simp [gopacket.Layer.LayerType])
    | ipv6 =>
      simp only [gopacket.decodeFrom]
      split
      · rw [firstARP_cons _ _ (by simp [gopacket.Layer.LayerType]),
          firstICMPv4_cons _ _ (by simp [gopacket.Layer.LayerType])]
        exact ih _ _
      · split
        · exact Or.inl rfl
        · exact tail _ _ _ (by simp [gopacket.Layer.LayerType])
            (by simp [gopacket.Layer.LayerType])
    | icmpv4 =>
      simp only [gopacket.decodeFrom]
      split
      · exact Or.inl rfl
      · left
        rw [firstARP_cons _ _ (by simp [gopacket.Layer.LayerType])]
        split
        · rfl
        · exact (decodeFrom_payload ext fuel _).1
    | unmodelled k =>
      simp only [gopacket.decodeFrom]
      split
      · exact Or.inl rfl
      · exact tail _ _ _ (by simp [gopacket.Layer.LayerType]) (by simp [gopacket.Layer.LayerType])

theorem emit_writes_le (r : gopacket.SerializeResult) (e : Effects) (h : emit r = .ok e) :
    e.writes.length ≤ 1 := by
  cases r with
  | ok b => simp only [emit, Except.ok.injEq] at h; subst h; simp
  | err m => simp only [emit, Except.ok.injEq] at h; subst h; simp
  | panic m => simp [emit] at h

theorem handleARPRequest_writes_le (l : gopacket.Layer) (M I : Bytes) (e : Effects)
    (h : tap.handleARPRequest l M I = .ok e) : e.writes.length ≤ 1 := by
  cases l <;> simp only [tap.handleARPRequest, reduceCtorEq] at h
  exact emit_writes_le _ _ h

theorem serializeAndWrite_writes_le (p q : gopacket.Packet)
    (reply : List gopacket.SerializableLayer) (e : Effects)
    (h : serializeAndWrite p reply = .ok (q, e)) : e.writes.length ≤ 1 := by
  unfold serializeAndWrite at h
  cases he : emit (gopacket.SerializeLayers fixAll reply).2 with
  | error msg => rw [he] at h; simp at h
  | ok e1 =>
    rw [he] at h
    simp only [Except.ok.injEq, Prod.mk.injEq] at h
    obtain ⟨-, h⟩ := h
    subst h
    exact emit_writes_le _ _ he

theorem tap_handleICMPRequest_writes_le (packet q : gopacket.Packet) (l : gopacket.Layer)
    (e : Effects) (h : tap.handleICMPRequest packet l = .ok (q, e)) : e.writes.length ≤ 1 := by
  cases l <;> simp only [tap.handleICMPRequest, reduceCtorEq] at h
  rename_i icmp
  split at h
  · cases hr : tap.icmpReplyLayers packet icmp with
    | error msg => rw [hr] at h; simp at h
    | ok pr =>
      obtain ⟨p2, reply⟩ := pr
      rw [hr] at h
      exact serializeAndWrite_writes_le p2 q reply e h
  · simp only [Except.ok.injEq, Prod.mk.injEq] at h
    obtain ⟨-, h⟩ := h
    subst h
    simp [Effects.none]

/-- C8. At most one reply per frame: for every inbound frame, the decoded packet
never holds both an ARP layer and an ICMPv4 layer, so the ARP branch and the ICMP
branch of the loop of startTAP never both fire, and a turn of the loop that completes
has written at most one frame. -/
theorem at_most_one_reply_per_frame (ext : gopacket.Unmodelled) (fakeMACAddr fakeIPAddr : Bytes)
    (frame : Bytes) :
    ((gopacket.NewPacket ext frame .ethernet).Layer .ARP = none ∨
      (gopacket.NewPacket ext frame .ethernet).Layer .ICMPv4 = none) ∧
    ∀ e, tap.iteration ext fakeMACAddr fakeIPAddr frame = .ok e → e.writes.length ≤ 1 := by
  have hex : (gopacket.NewPacket ext frame .ethernet).Layer .ARP = none ∨
      (gopacket.NewPacket ext frame .ethernet).Layer .ICMPv4 = none :=
    decodeFrom_exclusive ext _ .ethernet frame
  refine ⟨hex, ?_⟩
  intro e h
  simp only [tap.iteration, tap.dispatch] at h
  rcases hex with ha | hi
  · rw [ha] at h
    simp only at h
    cases hl : (gopacket.NewPacket ext frame .ethernet).Layer .ICMPv4 with
    | none =>
      rw [hl] at h
      simp only [Except.ok.injEq] at h
      subst h; simp [Effects.none]
    | some icmpLayer =>
      rw [hl] at h
      simp only at h
      cases hh : tap.handleICMPRequest (gopacket.NewPacket ext frame .ethernet) icmpLayer with
      | error msg => rw [hh] at h; simp at h
      | ok r =>
        obtain ⟨q, e2⟩ := r
        rw [hh] at h
        simp only [Except.ok.injEq] at h
        subst h
        have := tap_handleICMPRequest_writes_le _ _ _ _ hh
        simpa [Effects.append, Effects.none] using this
  · rw [hi] at h
    cases hl : (gopacket.NewPacket ext frame .ethernet).Layer .ARP with
    | none =>
      rw [hl] at h
      simp only [Except.ok.injEq] at h
      subst h; simp [Effects.none]
    | some arpLayer =>
      rw [hl] at h
      simp only at h
      cases hh : tap.handleARPRequest arpLayer fakeMACAddr fakeIPAddr with
      | error msg => rw [hh] at h; simp at h
      | ok e1 =>
        rw [hh] at h
        simp only [Except.ok.injEq] at h
        subst h
        exact handleARPRequest_writes_le _ _ _ _ hh

/-- Witness for C8: the ARP request frame yields one frame, the ping yields one
frame, and the ARP request frame holds no ICMPv4 layer. -/
theorem at_most_one_reply_per_frame_witness :
    (gopacket.NewPacket noExt exampleARPRequestFrame .ethernet).Layer .ICMPv4 = none ∧
    [exampleARPAnswer].length ≤ 1 ∧ [examplePingReply].length ≤ 1 :=
  ⟨rfl,
   (at_most_one_reply_per_frame noExt exampleMAC exampleIP exampleARPRequestFrame).2
      { writes := [exampleARPAnswer], logs := [] } rfl,
   (at_most_one_reply_per_frame noExt exampleMAC exampleIP examplePingFrame).2
      { writes := [examplePingReply], logs := [] } rfl⟩

/-! ## The claims about the ICMP echo responder -/

theorem echoReplyFor_type (icmp : layers.ICMPv4) :
    (echoReplyFor icmp).Type = layers.ICMPv4TypeEchoReply := by
  simp [echoReplyFor, layers.ICMPv4.Type, layers.ICMPv4TypeEchoReply]

theorem echoReplyFor_code (icmp : layers.ICMPv4) : (echoReplyFor icmp).Code = 0 := by
  simp [echoReplyFor, layers.ICMPv4.Code, layers.ICMPv4TypeEchoReply]

/-- C2. ICMP echo reply correctness: for an echo request with identifier id,
sequence seq, payload B, source address S and destination address D, the reply stack
both handlers hand to the serializer has an ICMPv4 layer of type echo-reply, code 0,
identifier id and sequence seq, the payload B itself, and an IPv4 layer with source D
and destination S (time to live and protocol as in the request); in the link-aware
variant its Ethernet layer has the source and destination hardware addresses of the
request exchanged. What the handler writes is the serialization of that stack. -/
theorem icmp_echo_reply_correct (packet : gopacket.Packet) (icmp : layers.ICMPv4)
    (ip : layers.IPv4) (id seq : Nat) (B S D : Bytes)
    (hty : icmp.Type = layers.ICMPv4TypeEchoRequest)
    (hid : icmp.Id = id) (hseq : icmp.Seq = seq) (hB : icmp.Payload = B)
    (hip : packet.Layer .IPv4 = some (.ipv4 ip)) (hS : ip.SrcIP = S) (hD : ip.DstIP = D) :
    (∃ p1 ipR icmpR,
      tun.icmpReplyLayers packet icmp = .ok (p1, [.ipv4 ipR, .icmpv4 icmpR, .payload B]) ∧
      icmpR.Type = layers.ICMPv4TypeEchoReply ∧ icmpR.Code = 0 ∧
      icmpR.Id = id ∧ icmpR.Seq = seq ∧
      ipR.SrcIP = D ∧ ipR.DstIP = S ∧ ipR.TTL = ip.TTL ∧ ipR.Protocol = ip.Protocol ∧
      tun.handleICMPRequest packet (.icmpv4 icmp) =
        serializeAndWrite p1 [.ipv4 ipR, .icmpv4 icmpR, .payload B]) ∧
    (∀ eth, packet.Layer .Ethernet = some (.ethernet eth) →
      ∃ p2 ethR ipR icmpR,
        tap.icmpReplyLayers packet icmp =
          .ok (p2, [.ethernet ethR, .ipv4 ipR, .icmpv4 icmpR, .payload B]) ∧
        icmpR.Type = layers.ICMPv4TypeEchoReply ∧ icmpR.Code = 0 ∧
        icmpR.Id = id ∧ icmpR.Seq = seq ∧
        ipR.SrcIP = D ∧ ipR.DstIP = S ∧ ipR.TTL = ip.TTL ∧ ipR.Protocol = ip.Protocol ∧
        ethR.SrcMAC = eth.DstMAC ∧ ethR.DstMAC = eth.SrcMAC ∧
        ethR.EthernetType = eth.EthernetType ∧
        tap.handleICMPRequest packet (.icmpv4 icmp) =
          serializeAndWrite p2 [.ethernet ethR, .ipv4 ipR, .icmpv4 icmpR, .payload B]) := by
  subst hid hseq hB hS hD
  refine ⟨⟨_, _, _, tun_icmpReplyLayers_eq packet icmp ip hip, echoReplyFor_type icmp,
    echoReplyFor_code icmp, rfl, rfl, rfl, rfl, rfl, rfl, tun_handle_echo packet icmp ip hty hip⟩,
    ?_⟩
  intro eth heth
  exact ⟨_, _, _, _, tap_icmpReplyLayers_eq packet icmp ip eth hip heth, echoReplyFor_type icmp,
    echoReplyFor_code icmp, rfl, rfl, rfl, rfl, rfl, rfl, rfl, rfl, rfl,
    tap_handle_echo packet icmp ip eth hty hip heth⟩

/-- Witness for C2: the ping of end-to-end scenario 2 (10.0.0.5 to 10.0.0.1, id 1,
seq 1, payload "ping"), as a TUN interface and as a TAP interface deliver it. -/
theorem icmp_echo_reply_correct_witness :
    (∃ p1 ipR icmpR,
      tun.icmpReplyLayers examplePingPacketTun examplePingICMP =
        .ok (p1, [.ipv4 ipR, .icmpv4 icmpR, .payload [112, 105, 110, 103]]) ∧
      icmpR.Type = layers.ICMPv4TypeEchoReply ∧ icmpR.Code = 0 ∧
      icmpR.Id = 1 ∧ icmpR.Seq = 1 ∧
      ipR.SrcIP = [10, 0, 0, 1] ∧ ipR.DstIP = [10, 0, 0, 5] ∧
      ipR.TTL = examplePingIPv4.TTL ∧ ipR.Protocol = examplePingIPv4.Protocol ∧
      tun.handleICMPRequest examplePingPacketTun (.icmpv4 examplePingICMP) =
        serializeAndWrite p1 [.ipv4 ipR, .icmpv4 icmpR, .payload [112, 105, 110, 103]]) ∧
    (∃ p2 ethR ipR icmpR,
      tap.icmpReplyLayers examplePingPacket examplePingICMP =
        .ok (p2, [.ethernet ethR, .ipv4 ipR, .icmpv4 icmpR, .payload [112, 105, 110, 103]]) ∧
      icmpR.Type = layers.ICMPv4TypeEchoReply ∧ icmpR.Code = 0 ∧
      icmpR.Id = 1 ∧ icmpR.Seq = 1 ∧
      ipR.SrcIP = [10, 0, 0, 1] ∧ ipR.DstIP = [10, 0, 0, 5] ∧
      ipR.TTL = examplePingIPv4.TTL ∧ ipR.Protocol = examplePingIPv4.Protocol ∧
      ethR.SrcMAC = examplePingEthernet.DstMAC ∧ ethR.DstMAC = examplePingEthernet.SrcMAC ∧
      ethR.EthernetType = examplePingEthernet.EthernetType ∧
      tap.handleICMPRequest examplePingPacket (.icmpv4 examplePingICMP) =
        serializeAndWrite p2
          [.ethernet ethR, .ipv4 ipR, .icmpv4 icmpR, .payload [112, 105, 110, 103]]) :=
  ⟨(icmp_echo_reply_correct examplePingPacketTun examplePingICMP examplePingIPv4
      1 1 [112, 105, 110, 103] [10, 0, 0, 5] [10, 0, 0, 1] rfl rfl rfl rfl rfl rfl rfl).1,
   (icmp_echo_reply_correct examplePingPacket examplePingICMP examplePingIPv4
      1 1 [112, 105, 110, 103] [10, 0, 0, 5] [10, 0, 0, 1] rfl rfl rfl rfl rfl rfl rfl).2
      examplePingEthernet rfl⟩

/-- C4. The ICMP type alone decides: in both variants handleICMPRequest returns
without serializing or writing anything exactly when the type of the ICMPv4 layer is
not echo-request; an echo request with any code value has type echo-request, and for
it the handler serializes a reply whose ICMPv4 layer has type echo-reply and code 0
(given the IPv4 layer, and in the link-aware variant the Ethernet layer, the handler
reads). -/
theorem icmp_reply_iff_echo_request (packet : gopacket.Packet) (icmp : layers.ICMPv4) :
    (tun.handleICMPRequest packet (.icmpv4 icmp) = .ok (packet, Effects.none)
      ↔ icmp.Type ≠ layers.ICMPv4TypeEchoRequest) ∧
    (tap.handleICMPRequest packet (.icmpv4 icmp) = .ok (packet, Effects.none)
      ↔ icmp.Type ≠ layers.ICMPv4TypeEchoRequest) ∧
    (∀ code, code < 256 →
      ({ icmp with TypeCode := 8 * 256 + code } : layers.ICMPv4).Type
        = layers.ICMPv4TypeEchoRequest) ∧
    (echoReplyFor icmp).Type = layers.ICMPv4TypeEchoReply ∧ (echoReplyFor icmp).Code = 0 ∧
    (icmp.Type = layers.ICMPv4TypeEchoRequest →
      ∀ ip, packet.Layer .IPv4 = some (.ipv4 ip) →
        tun.handleICMPRequest packet (.icmpv4 icmp) =
          serializeAndWrite
            (packet.setLayer .IPv4 (.ipv4 { ip with DstIP := ip.SrcIP, SrcIP := ip.DstIP }))
            [.ipv4 { ip with DstIP := ip.SrcIP, SrcIP := ip.DstIP },
             .icmpv4 (echoReplyFor icmp), .payload icmp.Payload] ∧
        ∀ eth, packet.Layer .Ethernet = some (.ethernet eth) →
          tap.handleICMPRequest packet (.icmpv4 icmp) =
            serializeAndWrite
              ((packet.setLayer .IPv4
                  (.ipv4 { ip with DstIP := ip.SrcIP, SrcIP := ip.DstIP })).setLayer .Ethernet
                  (.ethernet { eth with DstMAC := eth.SrcMAC, SrcMAC := eth.DstMAC }))
              [.ethernet { eth with DstMAC := eth.SrcMAC, SrcMAC := eth.DstMAC },
               .ipv4 { ip with DstIP := ip.SrcIP, SrcIP := ip.DstIP },
               .icmpv4 (echoReplyFor icmp), .payload icmp.Payload]) := by
  refine ⟨⟨?_, tun_handle_other packet icmp⟩, ⟨?_, tap_handle_other packet icmp⟩, ?_,
    echoReplyFor_type icmp, echoReplyFor_code icmp, ?_⟩
  · intro h hty
    simp only [tun.handleICMPRequest, hty, if_true] at h
    cases hr : tun.icmpReplyLayers packet icmp with
    | error msg => rw [hr] at h; simp at h
    | ok pr =>
      obtain ⟨p1, reply⟩ := pr
      rw [hr] at h
      exact serializeAndWrite_ne_none p1 packet reply h
  · intro h hty
    simp only [tap.handleICMPRequest, hty, if_true] at h
    cases hr : tap.icmpReplyLayers packet icmp with
    | error msg => rw [hr] at h; simp at h
    | ok pr =>
      obtain ⟨p1, reply⟩ := pr
      rw [hr] at h
      exact serializeAndWrite_ne_none p1 packet reply h
  · intro code hc
    simp only [layers.ICMPv4.Type, layers.ICMPv4TypeEchoRequest]
    omega
  · intro hty ip hip
    exact ⟨tun_handle_echo packet icmp ip hty hip,
      fun eth heth => tap_handle_echo packet icmp ip eth hty hip heth⟩

/-- Witness for C4: the ping of end-to-end scenario 2 is answered by both handlers,
and the same packet with an ICMPv4 layer of type 0 (an echo reply) is not. -/
theorem icmp_reply_iff_echo_request_witness :
    tun.handleICMPRequest examplePingPacketTun (.icmpv4 examplePingICMP)
      ≠ .ok (examplePingPacketTun, Effects.none) ∧
    tap.handleICMPRequest examplePingPacket (.icmpv4 examplePingICMP)
      ≠ .ok (examplePingPacket, Effects.none) ∧
    tun.handleICMPRequest examplePingPacketTun (.icmpv4 { examplePingICMP with TypeCode := 0 })
      = .ok (examplePingPacketTun, Effects.none) ∧
    tap.handleICMPRequest examplePingPacket (.icmpv4 { examplePingICMP with TypeCode := 0 })
      = .ok (examplePingPacket, Effects.none) :=
  ⟨fun h => (icmp_reply_iff_echo_request examplePingPacketTun examplePingICMP).1.mp h rfl,
   fun h => (icmp_reply_iff_echo_request examplePingPacket examplePingICMP).2.1.mp h rfl,
   (icmp_reply_iff_echo_request examplePingPacketTun
      { examplePingICMP with TypeCode := 0 }).1.mpr (by decide),
   (icmp_reply_iff_echo_request examplePingPacket
      { examplePingICMP with TypeCode := 0 }).2.1.mpr (by decide)⟩

/-! ## The handlers change the decoded request in place -/

theorem To4_of_length4 (addr : Bytes) (h : addr.length = 4) : net.To4 addr = addr := by
  simp only [net.To4, h, if_true]

theorem checkIPv4Address_of_length4 (addr : Bytes) (h : addr.length = 4) :
    layers.checkIPv4Address addr = .ok addr := by
  have hne : addr ≠ [] := by
    intro h0; rw [h0] at h; simp at h
  simp only [layers.checkIPv4Address, To4_of_length4 addr h, ne_eq, hne, not_false_eq_true,
    if_true]

theorem IPv4_SerializeTo_addrs (ip : layers.IPv4) (b : Bytes) (opts : gopacket.SerializeOptions)
    (hs : ip.SrcIP.length = 4) (hd : ip.DstIP.length = 4) :
    (ip.SerializeTo b opts).1.SrcIP = ip.SrcIP ∧ (ip.SerializeTo b opts).1.DstIP = ip.DstIP := by
  unfold layers.IPv4.SerializeTo
  simp only
  have e1 : ∀ x y : Nat, layers.checkIPv4Address
      (if opts.FixLengths = true then ({ ip with IHL := x, Length := y } : layers.IPv4)
        else ip).SrcIP = .ok ip.SrcIP := by
    intro x y
    split <;> exact checkIPv4Address_of_length4 _ hs
  have e2 : ∀ x y : Nat, layers.checkIPv4Address
      (if opts.FixLengths = true then ({ ip with IHL := x, Length := y } : layers.IPv4)
        else ip).DstIP = .ok ip.DstIP := by
    intro x y
    split <;> exact checkIPv4Address_of_length4 _ hd
  simp only [e1, e2]
  split
  · exact ⟨rfl, rfl⟩
  · exact ⟨rfl, rfl⟩
  · split
    · split <;> exact ⟨rfl, rfl⟩
    · exact ⟨rfl, rfl⟩

theorem Ethernet_SerializeTo_addrs (eth : layers.Ethernet) (b : Bytes)
    (opts : gopacket.SerializeOptions) :
    (eth.SerializeTo b opts).1.SrcMAC = eth.SrcMAC ∧
    (eth.SerializeTo b opts).1.DstMAC = eth.DstMAC := by
  simp only [layers.Ethernet.SerializeTo]
  split_ifs <;> exact ⟨rfl, rfl⟩

theorem SerializeLayers_cons_fst (opts : gopacket.SerializeOptions)
    (l : gopacket.SerializableLayer) (rest : List gopacket.SerializableLayer) :
    (gopacket.SerializeLayers opts (l :: rest)).1 =
      (match (gopacket.SerializeLayers opts rest).2 with
        | .ok b => (l.SerializeTo b opts).1
        | .err _ => l
        | .panic _ => l) :: (gopacket.SerializeLayers opts rest).1 := by
  rw [gopacket.SerializeLayers]
  generalize gopacket.SerializeLayers opts rest = res
  obtain ⟨rest1, r⟩ := res
  cases r <;> simp [Prod.map]

theorem tun_post_state (P p : gopacket.Packet) (e : Effects) (ip : layers.IPv4)
    (r : layers.ICMPv4) (B : Bytes) (old : gopacket.Layer) (hP : P.Layer .IPv4 = some old)
    (hs : ip.SrcIP.length = 4) (hd : ip.DstIP.length = 4)
    (h : serializeAndWrite P [.ipv4 ip, .icmpv4 r, .payload B] = .ok (p, e)) :
    (∃ ip1, p.Layer .IPv4 = some (.ipv4 ip1) ∧ ip1.SrcIP = ip.SrcIP ∧ ip1.DstIP = ip.DstIP) ∧
    p.Layer .ICMPv4 = P.Layer .ICMPv4 := by
  unfold serializeAndWrite at h
  split at h
  · simp at h
  · simp only [Except.ok.injEq, Prod.mk.injEq] at h
    obtain ⟨hp, -⟩ := h
    rw [SerializeLayers_ip_icmp] at hp
    simp only [writeBack] at hp
    subst hp
    obtain ⟨a1, a2⟩ := IPv4_SerializeTo_addrs ip (icmpBytes r B) fixAll hs hd
    exact ⟨⟨_, Layer_setIPv4_self P _ old hP, a1, a2⟩, Layer_setIPv4_ne P _ .ICMPv4 (by decide)⟩

theorem tap_post_state (P p : gopacket.Packet) (e : Effects) (eth : layers.Ethernet)
    (ip : layers.IPv4) (r : layers.ICMPv4) (B : Bytes) (old1 old2 : gopacket.Layer)
    (hP1 : P.Layer .IPv4 = some old1) (hP2 : P.Layer .Ethernet = some old2)
    (hs : ip.SrcIP.length = 4) (hd : ip.DstIP.length = 4)
    (h : serializeAndWrite P [.ethernet eth, .ipv4 ip, .icmpv4 r, .payload B] = .ok (p, e)) :
    (∃ ip1, p.Layer .IPv4 = some (.ipv4 ip1) ∧ ip1.SrcIP = ip.SrcIP ∧ ip1.DstIP = ip.DstIP) ∧
    (∃ eth1, p.Layer .Ethernet = some (.ethernet eth1) ∧ eth1.SrcMAC = eth.SrcMAC ∧
      eth1.DstMAC = eth.DstMAC) ∧
    p.Layer .ICMPv4 = P.Layer .ICMPv4 := by
  unfold serializeAndWrite at h
  split at h
  · simp at h
  · simp only [Except.ok.injEq, Prod.mk.injEq] at h
    obtain ⟨hp, -⟩ := h
    rw [SerializeLayers_cons_fst, SerializeLayers_ip_icmp] at hp
    simp only [writeBack] at hp
    obtain ⟨a1, a2⟩ := IPv4_SerializeTo_addrs ip (icmpBytes r B) fixAll hs hd
    have hE : ∀ ethX : layers.Ethernet,
        ((P.setLayer .Ethernet (.ethernet ethX)).setLayer .IPv4
          (.ipv4 (ip.SerializeTo (icmpBytes r B) fixAll).1)) = p →
        ethX.SrcMAC = eth.SrcMAC → ethX.DstMAC = eth.DstMAC →
        (∃ ip1, p.Layer .IPv4 = some (.ipv4 ip1) ∧ ip1.SrcIP = ip.SrcIP ∧ ip1.DstIP = ip.DstIP) ∧
        (∃ eth1, p.Layer .Ethernet = some (.ethernet eth1) ∧ eth1.SrcMAC = eth.SrcMAC ∧
          eth1.DstMAC = eth.DstMAC) ∧
        p.Layer .ICMPv4 = P.Layer .ICMPv4 := by
      intro ethX hpX m1 m2
      subst hpX
      refine ⟨⟨_, Layer_setIPv4_self _ _ old1 ?_, a1, a2⟩, ⟨ethX, ?_, m1, m2⟩, ?_⟩
      · rw [Layer_setEthernet_ne P _ .IPv4 (by decide)]; exact hP1
      · rw [Layer_setIPv4_ne _ _ .Ethernet (by decide)]
        exact Layer_setEthernet_self P _ old2 hP2
      · rw [Layer_setIPv4_ne _ _ .ICMPv4 (by decide),
          Layer_setEthernet_ne P _ .ICMPv4 (by decide)]
    generalize (ip.SerializeTo (icmpBytes r B) fixAll).2 = res at hp
    cases res with
    | ok out =>
      simp only [gopacket.SerializableLayer.SerializeTo, Prod.map, id] at hp
      obtain ⟨m1, m2⟩ := Ethernet_SerializeTo_addrs eth out fixAll
      exact hE _ hp m1 m2
    | err msg => exact hE eth hp rfl rfl
    | panic msg => exact hE eth hp rfl rfl


/-! ## Where the code departs from the spec -/

/-- C3, evaluated on the code: a frame whose ARP layer has operation 2 (an ARP
reply) is decoded to an ARP layer with that operation, and one turn of the loop of
startTAP answers it with the same 60-byte ARP reply it writes for the request. -/
theorem arp_reply_frame_is_answered (ext : gopacket.Unmodelled) :
    (∃ arp, (gopacket.NewPacket ext exampleARPReplyFrame .ethernet).Layer .ARP
        = some (.arp arp) ∧ arp.Operation = layers.ARPReply) ∧
    tap.iteration ext exampleMAC exampleIP exampleARPReplyFrame
      = .ok { writes := [exampleARPAnswer], logs := [] } ∧
    tap.iteration ext exampleMAC exampleIP exampleARPRequestFrame
      = .ok { writes := [exampleARPAnswer], logs := [] } :=
  ⟨⟨_, rfl, rfl⟩, rfl, rfl⟩

/-- C6, evaluated on the code: when the interface was created and set up, startTAP
enters its loop whatever the two parsers return, with a nil address where parsing
failed; the bad address then shows per packet: with a nil hardware address every ARP
frame ends in a logged serialization error, and with a nil protocol address every ARP
frame is answered with a reply that lacks the sender protocol address. -/
theorem bad_address_reaches_loop (parseMAC parseIP : String → Option Bytes)
    (fakeMAC fakeIP : String) :
    tap.startTAP none none parseMAC parseIP fakeMAC fakeIP
      = .looping ((parseMAC fakeMAC).getD []) ((parseIP fakeIP).getD []) ∧
    tap.startTAP none none (fun _ => none) (fun _ => none) fakeMAC fakeIP = .looping [] [] ∧
    tap.iteration noExt [] exampleIP exampleARPRequestFrame
      = .ok { writes := [], logs := ["serialize layers failed: invalid src MAC"] } ∧
    tap.iteration noExt exampleMAC [] exampleARPRequestFrame
      = .ok { writes := [[170, 187, 204, 221, 238, 255, 2, 0, 0, 0, 0, 1, 8, 6,
                          0, 1, 8, 0, 6, 4, 0, 2, 2, 0, 0, 0, 0, 1,
                          170, 187, 204, 221, 238, 255, 10, 0, 0, 5,
                          0, 0, 0, 0, 0, 0, 0, 0, 0, 0, 0, 0, 0, 0, 0, 0, 0, 0, 0, 0, 0, 0]],
              logs := [] } :=
  ⟨rfl, rfl, rfl, rfl⟩

/-- C9, evaluated on the code: an Ethernet frame with EtherType IPv6 whose IPv6
header names ICMPv4 as next header decodes to a stack with an ICMPv4 echo-request
layer and no IPv4 layer; the unchecked type assertion of handleICMPRequest then
panics, and the loop of startTAP never reaches the frame that follows. -/
theorem ipv6_frame_with_icmpv4_panics (ext : gopacket.Unmodelled)
    (fakeMACAddr fakeIPAddr : Bytes) :
    (gopacket.NewPacket ext exampleIPv6Frame .ethernet).Layer .IPv4 = none ∧
    (∃ icmp, (gopacket.NewPacket ext exampleIPv6Frame .ethernet).Layer .ICMPv4
        = some (.icmpv4 icmp) ∧ icmp.Type = layers.ICMPv4TypeEchoRequest) ∧
    tap.iteration ext fakeMACAddr fakeIPAddr exampleIPv6Frame
      = .error "interface conversion: interface is nil, not *layers.IPv4" ∧
    tap.loop ext fakeMACAddr fakeIPAddr [.ok exampleIPv6Frame, .ok examplePingFrame]
      = .error "interface conversion: interface is nil, not *layers.IPv4" :=
  ⟨rfl, ⟨_, rfl, rfl⟩, rfl, rfl⟩

/-! ## Further properties of the two loops -/

theorem decodeFrom_ipv4_head (ext : gopacket.Unmodelled) (fuel : Nat) (data : Bytes) :
    ∃ ip rest, gopacket.decodeFrom ext (fuel + 1) .ipv4 data = .ipv4 ip :: rest := by
  simp only [gopacket.decodeFrom]
  split
  · exact ⟨_, _, rfl⟩
  · exact ⟨_, _, rfl⟩

/-- In the link-unaware variant the decoded packet always starts with an IPv4 layer,
so the type assertion on `packet.Layer(layers.LayerTypeIPv4)` in handleICMPRequest
finds its layer for every frame read from the TUN interface. -/
theorem tun_packet_has_ipv4_layer (ext : gopacket.Unmodelled) (frame : Bytes) :
    ∃ ip, (gopacket.NewPacket ext frame .ipv4).Layer .IPv4 = some (.ipv4 ip) := by
  obtain ⟨ip, rest, h⟩ := decodeFrom_ipv4_head ext frame.length frame
  refine ⟨ip, ?_⟩
  simp only [gopacket.NewPacket, gopacket.Packet.Layer, h, List.find?, gopacket.Layer.LayerType,
    decide_True]

/-- End-to-end scenario 1 of the spec: the ARP request from aa:bb:cc:dd:ee:ff
(10.0.0.5) for 10.0.0.1, with the identity (02:00:00:00:00:01, 10.0.0.1), is answered
with one ARP reply frame from 02:00:00:00:00:01 (10.0.0.1) to aa:bb:cc:dd:ee:ff
(10.0.0.5). -/
theorem scenario_arp_request (ext : gopacket.Unmodelled) :
    tap.iteration ext exampleMAC exampleIP exampleARPRequestFrame
      = .ok { writes := [exampleARPAnswer], logs := [] } :=
  rfl

/-- End-to-end scenario 2 of the spec: the echo request from 10.0.0.5 to 10.0.0.1
(id 1, seq 1, payload "ping") is answered with one echo reply from 10.0.0.1 to
10.0.0.5 with the same id, seq and payload, on TUN and on TAP. -/
theorem scenario_ping (ext : gopacket.Unmodelled) (fakeMACAddr fakeIPAddr : Bytes) :
    tun.iteration ext examplePingFrameTun = .ok { writes := [examplePingReplyTun], logs := [] } ∧
    tap.iteration ext fakeMACAddr fakeIPAddr examplePingFrame
      = .ok { writes := [examplePingReply], logs := [] } :=
  ⟨rfl, rfl⟩

/-! ## When a turn of the loop panics -/

theorem store_some (bytes : Bytes) (i v : Nat) (h : i < bytes.length) :
    layers.store bytes i v = some (bytes.set i (v % 256)) := by
  simp only [layers.store, h, if_true]

theorem optionsSize_cons (o : layers.IPv4Option) (rest : List layers.IPv4Option) :
    optionsSize (o :: rest) = optionSizeOf o + optionsSize rest := by
  simp [optionsSize]

theorem putOptions_ok (opts : List layers.IPv4Option) :
    ∀ (cur : Nat) (bytes : Bytes), (∀ o ∈ opts, OptionWF o) →
      cur + optionsSize opts ≤ bytes.length → ∃ out, layers.putOptions opts cur bytes = .ok out := by
  induction opts with
  | nil => intro cur bytes _ _; exact ⟨bytes, rfl⟩
  | cons o rest ih =>
    intro cur bytes hwf hsz
    rw [optionsSize_cons] at hsz
    have hrest : ∀ x ∈ rest, OptionWF x := fun x hx => hwf x (by simp [hx])
    unfold layers.putOptions
    by_cases h0 : o.OptionType = 0
    · have hs : optionSizeOf o = 1 := by unfold optionSizeOf; rw [if_pos h0]
      rw [hs] at hsz
      rw [if_pos h0, store_some _ _ _ (by omega)]
      exact ih _ _ hrest (by simp only [List.length_set]; omega)
    · by_cases h1 : o.OptionType = 1
      · have hs : optionSizeOf o = 1 := by unfold optionSizeOf; rw [if_neg h0, if_pos h1]
        rw [hs] at hsz
        rw [if_neg h0, if_pos h1, store_some _ _ _ (by omega)]
        exact ih _ _ hrest (by simp only [List.length_set]; omega)
      · have hs : optionSizeOf o = o.OptionLength := by
          unfold optionSizeOf; rw [if_neg h0, if_neg h1]
        rw [hs] at hsz
        rcases hwf o (by simp) with h | h | ⟨h2, h256, hdata⟩
        · exact absurd h h0
        · exact absurd h h1
        · rw [if_neg h0, if_neg h1, store_some _ _ _ (by omega)]
          simp only
          rw [store_some _ _ _ (by simp only [List.length_set]; omega)]
          simp only
          rw [if_neg (by omega), if_neg (by omega)]
          exact ih _ _ hrest (by simp only [length_copyAt, List.length_set]; omega)

theorem checksumLoop_even (l : Bytes) (acc : Nat) (h : l.length % 2 = 0) :
    ∃ s, layers.checksumLoop l acc = some s := by
  induction l, acc using layers.checksumLoop.induct with
  | case1 acc => exact ⟨acc, rfl⟩
  | case2 b0 acc => simp at h
  | case3 b0 b1 rest acc ih =>
    simp only [List.length_cons] at h
    simp only [layers.checksumLoop]
    exact ih (by omega)

theorem checksum_some (bytes : Bytes) (h : bytes.length % 2 = 0) :
    ∃ c, layers.checksum bytes = some c := by
  obtain ⟨s, hs⟩ := checksumLoop_even ((bytes.set 10 0).set 11 0) 0
    (by simp only [List.length_set]; exact h)
  exact ⟨65535 - layers.foldCarry s, by simp only [layers.checksum, hs]⟩

theorem getIPv4OptionSize_ge (ip : layers.IPv4) (h : optionsSize ip.Options ≤ 40) :
    optionsSize ip.Options ≤ ip.getIPv4OptionSize := by
  unfold layers.IPv4.getIPv4OptionSize
  simp only
  rw [foldl_optionSize ip.Options 0 (by omega), Nat.zero_add]
  split <;> omega

theorem IPv4_SerializeTo_result (ip : layers.IPv4) (b : Bytes)
    (hwf : ∀ o ∈ ip.Options, OptionWF o) (hsz : optionsSize ip.Options ≤ 40) :
    (∃ out, (ip.SerializeTo b fixAll).2 = .ok out) ∨
    (∃ msg, (ip.SerializeTo b fixAll).2 = .err msg) := by
  have hge := getIPv4OptionSize_ge ip hsz
  have hmod := getIPv4OptionSize_mod ip
  unfold layers.IPv4.SerializeTo
  simp only [fixAll, if_true]
  cases hsrc : layers.checkIPv4Address ip.SrcIP with
  | error e => exact Or.inr ⟨_, rfl⟩
  | ok src =>
    simp only
    cases hdst : layers.checkIPv4Address ip.DstIP with
    | error e => exact Or.inr ⟨_, rfl⟩
    | ok dst =>
      simp only
      obtain ⟨-, hs4⟩ := checkIPv4Address_ok _ _ hsrc
      obtain ⟨-, hd4⟩ := checkIPv4Address_ok _ _ hdst
      generalize hb0 : ([ip.Version * 16 % 256 ||| (5 + ip.getIPv4OptionSize / 4) % 256 % 256,
        ip.TOS % 256] ++ putUint16 ((20 + ip.getIPv4OptionSize + b.length) % 65536)
        ++ putUint16 ip.Id
        ++ putUint16 ({ ip with IHL := (5 + ip.getIPv4OptionSize / 4) % 256,
                                Length := (20 + ip.getIPv4OptionSize + b.length) % 65536
                      } : layers.IPv4).flagsfrags
        ++ [ip.TTL % 256, ip.Protocol % 256, 0, 0] ++ src ++ dst
        ++ List.replicate ip.getIPv4OptionSize 0) = bytes0
      have hlen0 : bytes0.length = 20 + ip.getIPv4OptionSize := by
        rw [← hb0]
        simp [putUint16, hs4, hd4]
        omega
      obtain ⟨out, hout⟩ := putOptions_ok ip.Options 20 bytes0 hwf (by omega)
      rw [hout]
      simp only
      obtain ⟨hl, -, -⟩ := putOptions_inv _ _ _ _ hout
      obtain ⟨c, hc⟩ := checksum_some out (by omega)
      rw [hc]
      exact Or.inl ⟨_, rfl⟩

theorem emit_ok_of_not_panic (r : gopacket.SerializeResult)
    (h : (∃ out, r = .ok out) ∨ (∃ msg, r = .err msg)) : ∃ e, emit r = .ok e := by
  rcases h with ⟨out, rfl⟩ | ⟨msg, rfl⟩
  · exact ⟨_, rfl⟩
  · exact ⟨_, rfl⟩

theorem Ethernet_SerializeTo_result (eth : layers.Ethernet) (b : Bytes)
    (opts : gopacket.SerializeOptions) :
    (∃ out, (eth.SerializeTo b opts).2 = .ok out) ∨
    (∃ msg, (eth.SerializeTo b opts).2 = .err msg) := by
  simp only [layers.Ethernet.SerializeTo]
  split_ifs
  all_goals first
    | exact Or.inl ⟨_, rfl⟩
    | exact Or.inr ⟨_, rfl⟩

theorem handleARPRequest_never_panics (arp : layers.ARP) (M I : Bytes) :
    ∃ e, tap.handleARPRequest (.arp arp) M I = .ok e := by
  simp only [tap.handleARPRequest, tap.arpReplyLayers]
  apply emit_ok_of_not_panic
  rw [SerializeLayers_cons_result]
  have h1 : ∀ a : layers.ARP,
      gopacket.SerializeLayers fixNothing [.arp a] = ([.arp a], .ok (arpBytes a)) := by
    intro a
    rw [SerializeLayers_single]
    simp only [gopacket.SerializableLayer.SerializeTo, ARP_SerializeTo_fixNothing, Prod.map, id,
      List.append_nil]
  rw [h1]
  simp only [gopacket.SerializableLayer.SerializeTo, Prod.map, id]
  exact Ethernet_SerializeTo_result _ _ _

theorem tun_serializeAndWrite_ok (P : gopacket.Packet) (ip : layers.IPv4)
    (r : layers.ICMPv4) (B : Bytes) (hwf : ∀ o ∈ ip.Options, OptionWF o)
    (hsz : optionsSize ip.Options ≤ 40) :
    ∃ p e, serializeAndWrite P
      [.ipv4 { ip with DstIP := ip.SrcIP, SrcIP := ip.DstIP }, .icmpv4 r, .payload B]
        = .ok (p, e) := by
  unfold serializeAndWrite
  rw [SerializeLayers_ip_icmp]
  simp only
  obtain ⟨e, he⟩ := emit_ok_of_not_panic _
    (IPv4_SerializeTo_result { ip with DstIP := ip.SrcIP, SrcIP := ip.DstIP } (icmpBytes r B)
      hwf hsz)
  rw [he]
  exact ⟨_, _, rfl⟩

theorem tap_serializeAndWrite_ok (P : gopacket.Packet) (eth : layers.Ethernet)
    (ip : layers.IPv4) (r : layers.ICMPv4) (B : Bytes) (hwf : ∀ o ∈ ip.Options, OptionWF o)
    (hsz : optionsSize ip.Options ≤ 40) :
    ∃ p e, serializeAndWrite P
      [.ethernet eth, .ipv4 { ip with DstIP := ip.SrcIP, SrcIP := ip.DstIP }, .icmpv4 r,
       .payload B] = .ok (p, e) := by
  unfold serializeAndWrite
  have hres : ∃ e, emit (gopacket.SerializeLayers fixAll
      [.ethernet eth, .ipv4 { ip with DstIP := ip.SrcIP, SrcIP := ip.DstIP }, .icmpv4 r,
       .payload B]).2 = .ok e := by
    apply emit_ok_of_not_panic
    rw [SerializeLayers_cons_result, SerializeLayers_ip_icmp]
    simp only
    rcases IPv4_SerializeTo_result { ip with DstIP := ip.SrcIP, SrcIP := ip.DstIP }
      (icmpBytes r B) hwf hsz with ⟨out, ho⟩ | ⟨msg, hm⟩
    · rw [ho]
      simp only [gopacket.SerializableLayer.SerializeTo, Prod.map, id]
      exact Ethernet_SerializeTo_result _ _ _
    · rw [hm]
      exact Or.inr ⟨_, rfl⟩
  obtain ⟨e, he⟩ := hres
  rw [he]
  exact ⟨_, _, rfl⟩

/-- The loop of startTUN never panics: for every frame read from the TUN interface,
a turn of the loop completes (it writes a reply, logs an error, or does nothing). -/
theorem tun_iteration_never_panics (ext : gopacket.Unmodelled) (frame : Bytes)
    (hv : ValidBytes frame) : ∃ e, tun.iteration ext frame = .ok e := by
  unfold tun.iteration
  simp only
  cases hl : (gopacket.NewPacket ext frame .ipv4).Layer .ICMPv4 with
  | none => exact ⟨_, rfl⟩
  | some l =>
    obtain ⟨icmp, rfl, -⟩ := Layer_ICMPv4_is _ l hl
    simp only
    by_cases hty : icmp.Type = layers.ICMPv4TypeEchoRequest
    · obtain ⟨ip, hip⟩ := tun_packet_has_ipv4_layer ext frame
      have hok : LayerOK frame.length (.ipv4 ip) :=
        decodeFrom_inv ext frame.length _ .ipv4 frame hv (Nat.le_refl _) _
          (Layer_some_mem _ _ _ hip).1
      rw [tun_handle_echo _ icmp ip hty hip]
      obtain ⟨p, e, h⟩ := tun_serializeAndWrite_ok _ ip (echoReplyFor icmp)
        icmp.Payload hok.2.2.2.2.1 hok.2.2.2.2.2
      rw [h]
      exact ⟨_, rfl⟩
    · rw [tun_handle_other _ icmp hty]
      exact ⟨_, rfl⟩

/-- Witness: the ping of end-to-end scenario 2 read from the TUN interface. -/
theorem tun_iteration_never_panics_witness :
    ∃ e, tun.iteration noExt examplePingFrameTun = .ok e :=
  tun_iteration_never_panics noExt examplePingFrameTun valid_examplePingFrameTun

theorem decodeFrom_ethernet_head (ext : gopacket.Unmodelled) (fuel : Nat) (data : Bytes) :
    gopacket.decodeFrom ext (fuel + 1) .ethernet data = [.decodeFailure] ∨
    ∃ eth rest, gopacket.decodeFrom ext (fuel + 1) .ethernet data = .ethernet eth :: rest := by
  simp only [gopacket.decodeFrom]
  split
  · exact Or.inl rfl
  · exact Or.inr ⟨_, _, rfl⟩

/-- A turn of the loop of startTAP panics exactly when the decoded packet has an
ICMPv4 layer of type echo-request and no IPv4 layer. -/
theorem tap_iteration_panics_iff (ext : gopacket.Unmodelled) (fakeMACAddr fakeIPAddr : Bytes)
    (frame : Bytes) (hv : ValidBytes frame) :
    (∃ msg, tap.iteration ext fakeMACAddr fakeIPAddr frame = .error msg) ↔
    (∃ icmp, (gopacket.NewPacket ext frame .ethernet).Layer .ICMPv4 = some (.icmpv4 icmp) ∧
      icmp.Type = layers.ICMPv4TypeEchoRequest ∧
      (gopacket.NewPacket ext frame .ethernet).Layer .IPv4 = none) := by
  have harp : ∃ e1, (match (gopacket.NewPacket ext frame .ethernet).Layer .ARP with
      | some arpLayer => tap.handleARPRequest arpLayer fakeMACAddr fakeIPAddr
      | none => .ok Effects.none) = .ok e1 := by
    cases ha : (gopacket.NewPacket ext frame .ethernet).Layer .ARP with
    | none => exact ⟨_, rfl⟩
    | some l =>
      obtain ⟨hm, ht⟩ := Layer_some_mem _ _ l ha
      cases l <;> simp [gopacket.Layer.LayerType] at ht
      exact handleARPRequest_never_panics _ _ _
  obtain ⟨e1, he1⟩ := harp
  simp only [tap.iteration, tap.dispatch, he1]
  cases hl : (gopacket.NewPacket ext frame .ethernet).Layer .ICMPv4 with
  | none => simp
  | some l =>
    obtain ⟨icmp, rfl, hmem⟩ := Layer_ICMPv4_is _ l hl
    simp only [Option.some.injEq, gopacket.Layer.icmpv4.injEq, exists_eq_left']
    by_cases hty : icmp.Type = layers.ICMPv4TypeEchoRequest
    · rcases Layer_IPv4_cases (gopacket.NewPacket ext frame .ethernet) with hnone | ⟨ip, hip, hipm⟩
      · simp [tap.handleICMPRequest, hty, tap.icmpReplyLayers, hnone]
      · have hok : LayerOK frame.length (.ipv4 ip) :=
          decodeFrom_inv ext frame.length _ .ethernet frame hv (Nat.le_refl _) _ hipm
        have heth : ∃ eth, (gopacket.NewPacket ext frame .ethernet).Layer .Ethernet
            = some (.ethernet eth) := by
          rcases decodeFrom_ethernet_head ext frame.length frame with h | ⟨eth, rest, h⟩
          · have : (gopacket.NewPacket ext frame .ethernet).Layer .ICMPv4 = none := by
              simp only [gopacket.NewPacket, gopacket.Packet.Layer, h]
              rfl
            rw [this] at hl
            simp at hl
          · refine ⟨eth, ?_⟩
            simp only [gopacket.NewPacket, gopacket.Packet.Layer, h, List.find?,
              gopacket.Layer.LayerType, decide_True]
        obtain ⟨eth, heth⟩ := heth
        rw [tap_handle_echo _ icmp ip eth hty hip heth]
        obtain ⟨p, e, h⟩ := tap_serializeAndWrite_ok
          (((gopacket.NewPacket ext frame .ethernet).setLayer .IPv4
            (.ipv4 { ip with DstIP := ip.SrcIP, SrcIP := ip.DstIP })).setLayer .Ethernet
            (.ethernet { eth with DstMAC := eth.SrcMAC, SrcMAC := eth.DstMAC }))
          { eth with DstMAC := eth.SrcMAC, SrcMAC := eth.DstMAC } ip (echoReplyFor icmp)
          icmp.Payload hok.2.2.2.2.1 hok.2.2.2.2.2
        rw [h]
        simp [hip]
    · rw [tap_handle_other _ icmp hty]
      simp [hty]

/-- Witness: the ping (no panic) and the IPv6 frame that carries ICMPv4 (panic). -/
theorem tap_iteration_panics_iff_witness :
    (¬ ∃ msg, tap.iteration noExt exampleMAC exampleIP examplePingFrame = .error msg) ∧
    ∃ msg, tap.iteration noExt exampleMAC exampleIP exampleIPv6Frame = .error msg :=
  ⟨fun h => by
      obtain ⟨icmp, -, -, h3⟩ := (tap_iteration_panics_iff noExt exampleMAC exampleIP
        examplePingFrame valid_examplePingFrame).mp h
      exact absurd h3 (by decide),
   (tap_iteration_panics_iff noExt exampleMAC exampleIP exampleIPv6Frame
      (by unfold ValidBytes exampleIPv6Frame; decide)).mpr ⟨_, rfl, rfl, rfl⟩⟩

/-! ## The decoded request after the call -/

/-- C7, as amended. The handlers change the decoded request in place: for an echo
request whose IPv4 header has the 4-byte addresses S and D (and options of the shape
and size the decoder gives them), handleICMPRequest returns, and after the call the
IPv4 header of the decoded packet holds source D and destination S, and in the
link-aware variant its Ethernet header holds the two hardware addresses exchanged;
the reply is serialized from these same objects. The ICMPv4 layer of the request is
left as it was. -/
theorem handler_swaps_request_in_place (packet : gopacket.Packet) (icmp : layers.ICMPv4)
    (ip : layers.IPv4)
    (hty : icmp.Type = layers.ICMPv4TypeEchoRequest)
    (hip : packet.Layer .IPv4 = some (.ipv4 ip))
    (hs : ip.SrcIP.length = 4) (hd : ip.DstIP.length = 4)
    (hwf : ∀ o ∈ ip.Options, OptionWF o) (hsz : optionsSize ip.Options ≤ 40) :
    (∃ p e, tun.handleICMPRequest packet (.icmpv4 icmp) = .ok (p, e) ∧
      (∃ ip1, p.Layer .IPv4 = some (.ipv4 ip1) ∧ ip1.SrcIP = ip.DstIP ∧ ip1.DstIP = ip.SrcIP) ∧
      p.Layer .ICMPv4 = packet.Layer .ICMPv4) ∧
    (∀ eth, packet.Layer .Ethernet = some (.ethernet eth) →
      ∃ p e, tap.handleICMPRequest packet (.icmpv4 icmp) = .ok (p, e) ∧
        (∃ ip1, p.Layer .IPv4 = some (.ipv4 ip1) ∧ ip1.SrcIP = ip.DstIP ∧
          ip1.DstIP = ip.SrcIP) ∧
        (∃ eth1, p.Layer .Ethernet = some (.ethernet eth1) ∧ eth1.SrcMAC = eth.DstMAC ∧
          eth1.DstMAC = eth.SrcMAC) ∧
        p.Layer .ICMPv4 = packet.Layer .ICMPv4) := by
  constructor
  · rw [tun_handle_echo packet icmp ip hty hip]
    obtain ⟨p, e, h⟩ := tun_serializeAndWrite_ok
      (packet.setLayer .IPv4 (.ipv4 { ip with DstIP := ip.SrcIP, SrcIP := ip.DstIP }))
      ip (echoReplyFor icmp) icmp.Payload hwf hsz
    refine ⟨p, e, h, ?_⟩
    obtain ⟨h1, h2⟩ := tun_post_state _ p e _ _ _ _ (Layer_setIPv4_self packet _ _ hip) hd hs h
    exact ⟨h1, by rw [h2, Layer_setIPv4_ne packet _ .ICMPv4 (by decide)]⟩
  · intro eth heth
    rw [tap_handle_echo packet icmp ip eth hty hip heth]
    obtain ⟨p, e, h⟩ := tap_serializeAndWrite_ok
      ((packet.setLayer .IPv4 (.ipv4 { ip with DstIP := ip.SrcIP, SrcIP := ip.DstIP })).setLayer
        .Ethernet (.ethernet { eth with DstMAC := eth.SrcMAC, SrcMAC := eth.DstMAC }))
      { eth with DstMAC := eth.SrcMAC, SrcMAC := eth.DstMAC }
      ip (echoReplyFor icmp) icmp.Payload hwf hsz
    refine ⟨p, e, h, ?_⟩
    have hE : (packet.setLayer .IPv4
        (.ipv4 { ip with DstIP := ip.SrcIP, SrcIP := ip.DstIP })).Layer .Ethernet
        = some (.ethernet eth) := by
      rw [Layer_setIPv4_ne packet _ .Ethernet (by decide)]; exact heth
    have hI : ((packet.setLayer .IPv4
        (.ipv4 { ip with DstIP := ip.SrcIP, SrcIP := ip.DstIP })).setLayer .Ethernet
        (.ethernet { eth with DstMAC := eth.SrcMAC, SrcMAC := eth.DstMAC })).Layer .IPv4
        = some (.ipv4 { ip with DstIP := ip.SrcIP, SrcIP := ip.DstIP }) := by
      rw [Layer_setEthernet_ne _ _ .IPv4 (by decide)]
      exact Layer_setIPv4_self packet _ _ hip
    obtain ⟨h1, h2, h3⟩ := tap_post_state _ p e _ _ _ _ _ _ hI
      (Layer_setEthernet_self _ _ _ hE) hd hs h
    refine ⟨h1, h2, ?_⟩
    rw [h3, Layer_setEthernet_ne _ _ .ICMPv4 (by decide),
      Layer_setIPv4_ne packet _ .ICMPv4 (by decide)]

/-- Witness for C7 as amended: the ping of end-to-end scenario 2; both handlers
return, and the decoded packet then holds 10.0.0.1 as source and 10.0.0.5 as
destination (and, on TAP, the hardware addresses exchanged). -/
theorem handler_swaps_request_in_place_witness :
    (∃ p e, tun.handleICMPRequest examplePingPacketTun (.icmpv4 examplePingICMP) = .ok (p, e) ∧
      (∃ ip1, p.Layer .IPv4 = some (.ipv4 ip1) ∧ ip1.SrcIP = examplePingIPv4.DstIP ∧
        ip1.DstIP = examplePingIPv4.SrcIP) ∧
      p.Layer .ICMPv4 = examplePingPacketTun.Layer .ICMPv4) ∧
    (∃ p e, tap.handleICMPRequest examplePingPacket (.icmpv4 examplePingICMP) = .ok (p, e) ∧
      (∃ ip1, p.Layer .IPv4 = some (.ipv4 ip1) ∧ ip1.SrcIP = examplePingIPv4.DstIP ∧
        ip1.DstIP = examplePingIPv4.SrcIP) ∧
      (∃ eth1, p.Layer .Ethernet = some (.ethernet eth1) ∧
        eth1.SrcMAC = examplePingEthernet.DstMAC ∧ eth1.DstMAC = examplePingEthernet.SrcMAC) ∧
      p.Layer .ICMPv4 = examplePingPacket.Layer .ICMPv4) :=
  ⟨(handler_swaps_request_in_place examplePingPacketTun examplePingICMP
      examplePingIPv4 rfl rfl rfl rfl (fun o ho => by simp [examplePingIPv4] at ho)
      (by decide)).1,
   (handler_swaps_request_in_place examplePingPacket examplePingICMP
      examplePingIPv4 rfl rfl rfl rfl (fun o ho => by simp [examplePingIPv4] at ho)
      (by decide)).2 examplePingEthernet rfl⟩

/-- Counterexample to C7 as stated: after handleICMPRequest has run on the ping of
end-to-end scenario 2, the IPv4 header of the decoded request no longer holds the
source 10.0.0.5 and the destination 10.0.0.1 it was decoded with, and on TAP its
Ethernet header no longer holds the source aa:bb:cc:dd:ee:ff. -/
theorem request_unchanged_counterexample :
    (∃ p e ip1, tun.handleICMPRequest examplePingPacketTun (.icmpv4 examplePingICMP)
        = .ok (p, e) ∧
      examplePingPacketTun.Layer .IPv4 = some (.ipv4 examplePingIPv4) ∧
      p.Layer .IPv4 = some (.ipv4 ip1) ∧
      examplePingIPv4.SrcIP = [10, 0, 0, 5] ∧ examplePingIPv4.DstIP = [10, 0, 0, 1] ∧
      ip1.SrcIP = [10, 0, 0, 1] ∧ ip1.DstIP = [10, 0, 0, 5] ∧
      p.Layer .IPv4 ≠ examplePingPacketTun.Layer .IPv4) ∧
    (∃ p e ip1 eth1, tap.handleICMPRequest examplePingPacket (.icmpv4 examplePingICMP)
        = .ok (p, e) ∧
      examplePingPacket.Layer .Ethernet = some (.ethernet examplePingEthernet) ∧
      p.Layer .IPv4 = some (.ipv4 ip1) ∧ p.Layer .Ethernet = some (.ethernet eth1) ∧
      examplePingEthernet.SrcMAC = [170, 187, 204, 221, 238, 255] ∧
      eth1.SrcMAC = [2, 0, 0, 0, 0, 1] ∧
      ip1.SrcIP = [10, 0, 0, 1] ∧ ip1.DstIP = [10, 0, 0, 5] ∧
      p.Layer .IPv4 ≠ examplePingPacket.Layer .IPv4 ∧
      p.Layer .Ethernet ≠ examplePingPacket.Layer .Ethernet) :=
  ⟨⟨_, _, _, rfl, rfl, rfl, rfl, rfl, rfl, rfl, by decide⟩,
   ⟨_, _, _, _, rfl, rfl, rfl, rfl, rfl, rfl, rfl, rfl, by decide, by decide⟩⟩

/-! ## Every echo request read from the TUN interface is answered -/

theorem IPv4_SerializeTo_ok4 (ip : layers.IPv4) (b : Bytes)
    (hs : ip.SrcIP.length = 4) (hd : ip.DstIP.length = 4)
    (hwf : ∀ o ∈ ip.Options, OptionWF o) (hsz : optionsSize ip.Options ≤ 40) :
    ∃ out, (ip.SerializeTo b fixAll).2 = .ok out := by
  rcases IPv4_SerializeTo_result ip b hwf hsz with h | ⟨msg, h⟩
  · exact h
  · exfalso
    unfold layers.IPv4.SerializeTo at h
    simp only [fixAll, if_true, checkIPv4Address_of_length4 _ hs,
      checkIPv4Address_of_length4 _ hd] at h
    have hge := getIPv4OptionSize_ge ip hsz
    generalize hb0 : ([ip.Version * 16 % 256 ||| (5 + ip.getIPv4OptionSize / 4) % 256 % 256,
        ip.TOS % 256] ++ putUint16 ((20 + ip.getIPv4OptionSize + b.length) % 65536)
        ++ putUint16 ip.Id
        ++ putUint16 ({ ip with IHL := (5 + ip.getIPv4OptionSize / 4) % 256,
                                Length := (20 + ip.getIPv4OptionSize + b.length) % 65536
                      } : layers.IPv4).flagsfrags
        ++ [ip.TTL % 256, ip.Protocol % 256, 0, 0] ++ ip.SrcIP ++ ip.DstIP
        ++ List.replicate ip.getIPv4OptionSize 0) = bytes0 at h
    have hlen0 : bytes0.length = 20 + ip.getIPv4OptionSize := by
      rw [← hb0]
      simp [putUint16, hs, hd]
      omega
    obtain ⟨out, hout⟩ := putOptions_ok ip.Options 20 bytes0 hwf (by omega)
    rw [hout] at h
    simp only at h
    split at h <;> simp at h

theorem IPv4_Decode_some_addrs (data payload : Bytes)
    (h : (layers.IPv4.DecodeFromBytes data).2 = some payload) :
    (layers.IPv4.DecodeFromBytes data).1.SrcIP.length = 4 ∧
    (layers.IPv4.DecodeFromBytes data).1.DstIP.length = 4 := by
  unfold layers.IPv4.DecodeFromBytes at h ⊢
  split
  · rename_i hlt
    rw [if_pos hlt] at h
    simp at h
  · rename_i hge
    simp only
    generalize (if getUint16 (data.drop 2) = 0 then data.length % 65536
      else getUint16 (data.drop 2)) = L
    split_ifs
    all_goals
      simp only [List.length_take, List.length_drop]
      omega

/-- Every echo request read from the TUN interface is answered: for every frame
whose decoded packet has an ICMPv4 layer of type echo-request, a turn of the loop of
startTUN writes exactly one frame and logs nothing. -/
theorem tun_echo_request_is_answered (ext : gopacket.Unmodelled) (frame : Bytes)
    (icmp : layers.ICMPv4) (hv : ValidBytes frame)
    (hl : (gopacket.NewPacket ext frame .ipv4).Layer .ICMPv4 = some (.icmpv4 icmp))
    (hty : icmp.Type = layers.ICMPv4TypeEchoRequest) :
    ∃ reply, tun.iteration ext frame = .ok { writes := [reply], logs := [] } := by
  have hdec : ∃ payload rest, (layers.IPv4.DecodeFromBytes frame).2 = some payload ∧
      (gopacket.NewPacket ext frame .ipv4).layers
        = .ipv4 (layers.IPv4.DecodeFromBytes frame).1 :: rest := by
    cases hd : layers.IPv4.DecodeFromBytes frame with
    | mk ip r =>
      cases r with
      | none =>
        have : (gopacket.NewPacket ext frame .ipv4).Layer .ICMPv4 = none := by
          simp only [gopacket.NewPacket, gopacket.Packet.Layer, gopacket.decodeFrom, hd]
          rfl
        rw [this] at hl
        simp at hl
      | some payload =>
        exact ⟨payload,
          (if payload.isEmpty then []
           else gopacket.decodeFrom ext frame.length (gopacket.ipv4NextDecoder ip) payload),
          rfl, by simp only [gopacket.NewPacket, gopacket.decodeFrom, hd]⟩
  obtain ⟨payload, rest, hsome, hlayers⟩ := hdec
  obtain ⟨hs, hd⟩ := IPv4_Decode_some_addrs frame payload hsome
  have hip : (gopacket.NewPacket ext frame .ipv4).Layer .IPv4
      = some (.ipv4 (layers.IPv4.DecodeFromBytes frame).1) := by
    simp only [gopacket.Packet.Layer, hlayers, List.find?, gopacket.Layer.LayerType, decide_True]
  have hok : LayerOK frame.length (.ipv4 (layers.IPv4.DecodeFromBytes frame).1) :=
    decodeFrom_inv ext frame.length _ .ipv4 frame hv (Nat.le_refl _) _
      (Layer_some_mem _ _ _ hip).1
  obtain ⟨out, hout⟩ := IPv4_SerializeTo_ok4
    { (layers.IPv4.DecodeFromBytes frame).1 with
      DstIP := (layers.IPv4.DecodeFromBytes frame).1.SrcIP,
      SrcIP := (layers.IPv4.DecodeFromBytes frame).1.DstIP }
    (icmpBytes (echoReplyFor icmp) icmp.Payload) hd hs hok.2.2.2.2.1 hok.2.2.2.2.2
  refine ⟨out, ?_⟩
  unfold tun.iteration
  simp only [hl]
  rw [tun_handle_echo _ icmp _ hty hip, serializeAndWrite, SerializeLayers_ip_icmp]
  simp only [hout, emit]

/-- Witness: the ping of end-to-end scenario 2 read from the TUN interface. -/
theorem tun_echo_request_is_answered_witness :
    ∃ reply, tun.iteration noExt examplePingFrameTun = .ok { writes := [reply], logs := [] } :=
  tun_echo_request_is_answered noExt examplePingFrameTun examplePingICMP
    valid_examplePingFrameTun rfl rfl
